import Mathlib

/-!
Shallow embedding of the ShotGrid → Resilio reconciliation engine of
`functions/resilio_state_sync.py` (class `ResilioStateSyncManager`, method
`sync_resilio_to_shotgrid_state`, together with the helpers of
`ResilioStateAPI` it calls).

Remote calls are modelled by an oracle supplying: the agent directory
(`GET /agents`, `none` models the request raising `ApiError`), the job list
(`GET /jobs`), and the outcome of each create / delete / update call.  The
result record mirrors the Python `results` dict; in addition it carries ghost
fields recording the API calls the run issues and the remote job inventory
those calls leave behind, so that properties about "calls issued" and about a
second run over the post-state can be stated.
-/

/-! ### String utilities with Python semantics

All string work is done on `String.data` (char lists) with structurally
recursive functions, so that every definition evaluates inside the kernel.
-/

/-- Python `s.startswith(pre)`. -/
def pyStartswith (s pre : String) : Bool := pre.data.isPrefixOf s.data

/-- Python `pat in s` (substring containment test). -/
def hasSubstring (s pat : String) : Bool :=
  (List.range (s.data.length + 1)).any (fun i => pat.data.isPrefixOf (s.data.drop i))

/-- Python `s.endswith(pat)` (used only to state the specification's
"suffix" reading of the `_Assets` test; the source itself tests containment). -/
def pyEndswith (s pat : String) : Bool := pat.data.isSuffixOf s.data

/-- Replace every (non-overlapping, leftmost-first) occurrence of `pat` in the
char list, exactly as Python `str.replace`.  The `Nat` argument is fuel; one
char of input is consumed per step, so `l.length` fuel is always enough. -/
def pyReplaceAux (pat rep : List Char) : Nat → List Char → List Char
  | 0, l => l
  | _ + 1, [] => []
  | fuel + 1, c :: rest =>
      if pat.isPrefixOf (c :: rest) && !pat.isEmpty then
        rep ++ pyReplaceAux pat rep fuel ((c :: rest).drop pat.length)
      else
        c :: pyReplaceAux pat rep fuel rest

/-- Python `s.replace(pat, rep)` (for the non-empty patterns the source uses). -/
def pyReplace (s pat rep : String) : String :=
  ⟨pyReplaceAux pat.data rep.data s.data.length s.data⟩

/-- Python `path.replace('/', '\\')`: with a one-character pattern, Python's
`str.replace` is exactly a character map. -/
def winPath (s : String) : String :=
  ⟨s.data.map (fun c => if c = '/' then '\\' else c)⟩

/-- Python `s.lower()` (ASCII case folding suffices for the agent names used). -/
def lowerStr (s : String) : String := ⟨s.data.map Char.toLower⟩

/-- Python `', '.join(xs)`. -/
def joinComma : List String → String
  | [] => ""
  | [x] => x
  | x :: xs => x ++ ", " ++ joinComma xs

/-! ### Python `dict` / `set` operations

Python dicts are modelled as association lists in insertion order:
assignment to an existing key replaces the value in place, assignment to a
fresh key appends.  Python sets are modelled as duplicate-free lists (only
membership and size are ever observed by the source).
-/

/-- Python `m[k] = v` on a dict. -/
def alistInsert {α : Type} (m : List (String × α)) (k : String) (v : α) :
    List (String × α) :=
  match m with
  | [] => [(k, v)]
  | (k₀, v₀) :: rest =>
      if k₀ == k then (k, v) :: rest else (k₀, v₀) :: alistInsert rest k v

/-- Python `s.add(x)` on a set. -/
def setInsert (s : List String) (x : String) : List String :=
  if s.contains x then s else s ++ [x]

/-- Python `s.update(xs)` on a set. -/
def setUnion (s : List String) (xs : List String) : List String :=
  xs.foldl setInsert s

/-! ### Data model -/

/-- The per-OS path dict built for every agent entry
(`{'linux': p, 'win': p.replace('/', '\\'), 'osx': p}`). -/
structure OsPath where
  linux : String
  win : String
  osx : String
deriving Repr, DecidableEq

/-- Agent roles occurring in job payloads. -/
inductive Role
  | primary_storage
  | enduser
deriving Repr, DecidableEq

/-- One entry of a job's `agents` array.  The source additionally writes the
constant fields `priority_agents: True` (primary storage) and
`file_policy_id: 1` (enduser); they are never read back, so they are not
modelled. -/
structure AgentRef where
  id : String
  role : Role
  permission : String
  path : OsPath
deriving Repr, DecidableEq

/-- A job as returned by the orchestration system (`GET /jobs`).  Remote jobs
carry further server-populated fields (`total_transferred`, `created_at`, …);
the algorithm only ever strips them before an update, so they are not
modelled. -/
structure RemoteJob where
  id : Nat
  name : String
  agents : List AgentRef
deriving Repr, DecidableEq

/-- An agent directory entry (`GET /agents`). -/
structure RemoteAgent where
  name : String
  id : String
deriving Repr, DecidableEq

/-- One element of `sg_state['shots']`.  The `id` and `project.name` fields of
the snapshot are never read by the sync algorithm and are omitted. -/
structure Shot where
  code : String
  tankName : String
  sequence : String
  assignedArtists : List String
deriving Repr, DecidableEq

/-- The snapshot produced by `get_active_shots_with_assignments`:
`shots` plus the `artist_projects` dict (insertion-ordered). -/
structure Snapshot where
  shots : List Shot
  artistProjects : List (String × List String)
deriving Repr

/-- One `target_agents` (or `primary_storage`) entry of `artists.yaml`.
Missing keys are modelled as `""`, matching the source's `.get(..., "")`
defaults and Python truthiness tests. -/
structure AgentCfg where
  agentId : String
  agentName : String
  basePath : String
deriving Repr, DecidableEq

/-- The `path_templates` section of the configuration. -/
structure PathTemplates where
  shotsTemplate : String
  assetsTemplate : String
deriving Repr, DecidableEq

/-- The YAML configuration consumed by `ResilioStateSyncManager`. -/
structure Config where
  targetAgents : List (String × AgentCfg)
  primaryStorage : AgentCfg
  pathTemplates : PathTemplates
deriving Repr

/-- Expected-job classification (`job_config['type']`). -/
inductive JobType
  | shot
  | assets
deriving Repr, DecidableEq

/-- An expected job configuration (the dicts stored in `expected_shot_jobs`
and `expected_assets_jobs`). -/
structure JobConfig where
  name : String
  jtype : JobType
  artists : List String
  project : String
  shot : Option String
  primaryPath : String
  agents : List AgentRef
  description : String
deriving Repr, DecidableEq

/-! ### Path building (`build_*_path` methods, source lines 392–430) -/

/-- The chained `template.replace('${PROJECT}', …).replace('${SEQUENCE}', …)
.replace('${SHOT}', …)` of the shot-path builders. -/
def renderShotsTemplate (tmpl proj seq shot : String) : String :=
  pyReplace (pyReplace (pyReplace tmpl "$\x7bPROJECT\x7d" proj) "$\x7bSEQUENCE\x7d" seq)
    "$\x7bSHOT\x7d" shot

/-- `template.replace('${PROJECT}', …)` of the assets-path builders. -/
def renderAssetsTemplate (tmpl proj : String) : String :=
  pyReplace tmpl "$\x7bPROJECT\x7d" proj

/-- `self.config.get("target_agents", {}).get(artist, {})`. -/
def targetCfgOf (cfg : Config) (artist : String) : AgentCfg :=
  (List.lookup artist cfg.targetAgents).getD { agentId := "", agentName := "", basePath := "" }

/-- `build_primary_storage_path`. -/
def build_primary_storage_path (cfg : Config) (proj seq shot : String) : String :=
  cfg.primaryStorage.basePath ++ "/" ++
    renderShotsTemplate cfg.pathTemplates.shotsTemplate proj seq shot

/-- `build_target_agent_path`. -/
def build_target_agent_path (cfg : Config) (artist proj seq shot : String) : String :=
  (targetCfgOf cfg artist).basePath ++ "/" ++
    renderShotsTemplate cfg.pathTemplates.shotsTemplate proj seq shot

/-- `build_primary_assets_path`. -/
def build_primary_assets_path (cfg : Config) (proj : String) : String :=
  cfg.primaryStorage.basePath ++ "/" ++
    renderAssetsTemplate cfg.pathTemplates.assetsTemplate proj

/-- `build_target_assets_path`. -/
def build_target_assets_path (cfg : Config) (artist proj : String) : String :=
  (targetCfgOf cfg artist).basePath ++ "/" ++
    renderAssetsTemplate cfg.pathTemplates.assetsTemplate proj

/-- The per-OS path dict written for a rendered absolute path. -/
def mkOsPath (p : String) : OsPath :=
  { linux := p, win := winPath p, osx := p }

/-! ### Agent resolution (`find_agent_by_name`, `get_*_agent_id`) -/

/-- `ResilioStateAPI.find_agent_by_name` (source lines 41–50): a
case-insensitive exact-name search; an `ApiError` from `GET /agents`
(`ags = none`) is swallowed and yields `None`. -/
def find_agent_by_name (ags : Option (List RemoteAgent)) (nm : String) :
    Option RemoteAgent :=
  match ags with
  | none => none
  | some l => l.find? (fun a => lowerStr a.name == lowerStr nm)

/-- `get_primary_storage_agent_id` (source lines 432–443): a configured id
wins; otherwise a name lookup, raising (modelled as `Except.error` with the
exception text) when no agent matches. -/
def get_primary_storage_agent_id (cfg : Config) (ags : Option (List RemoteAgent)) :
    Except String String :=
  if cfg.primaryStorage.agentId ≠ "" then Except.ok cfg.primaryStorage.agentId
  else
    match find_agent_by_name ags cfg.primaryStorage.agentName with
    | some a => Except.ok a.id
    | none =>
        Except.error
          ("Primary storage agent \x27" ++ cfg.primaryStorage.agentName ++ "\x27 not found")

/-- `get_target_agent_id` (source lines 445–457). -/
def get_target_agent_id (cfg : Config) (ags : Option (List RemoteAgent))
    (artist : String) : Except String String :=
  let tc := targetCfgOf cfg artist
  if tc.agentId ≠ "" then Except.ok tc.agentId
  else
    match find_agent_by_name ags tc.agentName with
    | some a => Except.ok a.id
    | none =>
        Except.error
          ("Target agent \x27" ++ tc.agentName ++ "\x27 for artist \x27" ++ artist ++
            "\x27 not found")

/-! ### Job comparison (`compare_job_agents`, source lines 194–213) -/

/-- The enduser agent ids of an agents array. -/
def enduserIds (agents : List AgentRef) : List String :=
  (agents.filter (fun a => a.role == Role.enduser)).map AgentRef.id

/-- `ResilioStateAPI.compare_job_agents`: the source sorts both enduser lists
and then compares the two *sets* of ids (`current_ids == expected_ids`); the
sort has no effect on the result, so only the set comparison is modelled. -/
def compare_job_agents (job : RemoteJob) (expected : List AgentRef) : Bool :=
  let currentIds := enduserIds job.agents
  let expectedIds := enduserIds expected
  currentIds.all (fun i => expectedIds.contains i) &&
    expectedIds.all (fun i => currentIds.contains i)

/-! ### Desired-state builder (sync step 2, source lines 519–676) -/

/-- Accumulator threaded through the two build loops: the `processed_shots`
and `processed_asset_projects` sets, the two expected-job dicts, and the
`artists_processed` set and `errors` list of the results dict (the only two
result fields the build phase touches). -/
structure BuildSt where
  processedShots : List String
  processedAssetProjects : List String
  expectedShotJobs : List (String × JobConfig)
  expectedAssetsJobs : List (String × JobConfig)
  artistsProcessed : List String
  errors : List String
deriving Repr, DecidableEq

/-- `shot_key = f"{project_tank}_{shot_code}"` (source line 531). -/
def shotKeyOf (s : Shot) : String := s.tankName ++ "_" ++ s.code

/-- `job_name = f"HybridWork_{project_tank}_{shot_code}"` (source line 548). -/
def shotJobNameOf (s : Shot) : String := "HybridWork_" ++ s.tankName ++ "_" ++ s.code

/-- `job_name = f"HybridWork_{project_tank}_Assets"` (source line 625). -/
def assetsJobNameOf (proj : String) : String := "HybridWork_" ++ proj ++ "_Assets"

/-- `valid_artists` (source lines 537–540): assigned artists filtered to the
keys of `config["target_agents"]`. -/
def validArtistsOf (cfg : Config) (s : Shot) : List String :=
  s.assignedArtists.filter (fun a => (List.lookup a cfg.targetAgents).isSome)

/-- The per-artist enduser loop of the shot-job build (source lines 552–567):
each artist's agent id is resolved and a path dict is rendered; the first
resolution failure aborts the whole job build with that exception. -/
def buildEnduserAgents (cfg : Config) (ags : Option (List RemoteAgent))
    (tank seq code : String) : List String → Except String (List AgentRef)
  | [] => Except.ok []
  | artist :: rest =>
      match get_target_agent_id cfg ags artist with
      | Except.error e => Except.error e
      | Except.ok tid =>
          match buildEnduserAgents cfg ags tank seq code rest with
          | Except.error e => Except.error e
          | Except.ok restRefs =>
              Except.ok
                ({ id := tid, role := Role.enduser, permission := "srw",
                   path := mkOsPath (build_target_agent_path cfg artist tank seq code) }
                  :: restRefs)

/-- One iteration of `for shot in sg_state['shots']` (source lines 525–600). -/
def shotStep (cfg : Config) (ags : Option (List RemoteAgent)) (primaryId : String)
    (st : BuildSt) (s : Shot) : BuildSt :=
  if st.processedShots.contains (shotKeyOf s) then st
  else
    let st₁ := { st with processedShots := st.processedShots ++ [shotKeyOf s] }
    let validArtists := validArtistsOf cfg s
    if validArtists.isEmpty then st₁
    else
      let jobName := shotJobNameOf s
      let primaryPath := build_primary_storage_path cfg s.tankName s.sequence s.code
      match buildEnduserAgents cfg ags s.tankName s.sequence s.code validArtists with
      | Except.error e =>
          { st₁ with
            errors := st₁.errors ++
              ["Failed to build shot job config for " ++ s.code ++ ": " ++ e] }
      | Except.ok endUserAgents =>
          let fullAgents :=
            { id := primaryId, role := Role.primary_storage, permission := "rw",
              path := mkOsPath primaryPath } :: endUserAgents
          { st₁ with
            expectedShotJobs :=
              alistInsert st₁.expectedShotJobs jobName
                { name := jobName, jtype := JobType.shot, artists := validArtists,
                  project := s.tankName, shot := some s.code, primaryPath := primaryPath,
                  agents := fullAgents,
                  description := "Shot " ++ s.code ++ " for: " ++ joinComma validArtists },
            artistsProcessed := setUnion st₁.artistsProcessed validArtists }

/-- `project_artists` (source lines 613–617): every artist of
`artist_projects` working on `proj` and known to the configuration. -/
def projectArtistsOf (cfg : Config) (aps : List (String × List String))
    (proj : String) : List String :=
  (aps.filter
    (fun p => p.2.contains proj && (List.lookup p.1 cfg.targetAgents).isSome)).map Prod.fst

/-- The per-artist enduser loop of the assets-job build (source lines 629–644). -/
def buildAssetsEnduserAgents (cfg : Config) (ags : Option (List RemoteAgent))
    (proj : String) : List String → Except String (List AgentRef)
  | [] => Except.ok []
  | artist :: rest =>
      match get_target_agent_id cfg ags artist with
      | Except.error e => Except.error e
      | Except.ok tid =>
          match buildAssetsEnduserAgents cfg ags proj rest with
          | Except.error e => Except.error e
          | Except.ok restRefs =>
              Except.ok
                ({ id := tid, role := Role.enduser, permission := "srw",
                   path := mkOsPath (build_target_assets_path cfg artist proj) }
                  :: restRefs)

/-- One iteration of `for project_tank in projects` (source lines 608–676). -/
def assetsProjStep (cfg : Config) (ags : Option (List RemoteAgent)) (primaryId : String)
    (aps : List (String × List String)) (st : BuildSt) (proj : String) : BuildSt :=
  if st.processedAssetProjects.contains proj then st
  else
    let projectArtists := projectArtistsOf cfg aps proj
    if projectArtists.isEmpty then st
    else
      let st₁ := { st with processedAssetProjects := st.processedAssetProjects ++ [proj] }
      let jobName := assetsJobNameOf proj
      let primaryAssetsPath := build_primary_assets_path cfg proj
      match buildAssetsEnduserAgents cfg ags proj projectArtists with
      | Except.error e =>
          { st₁ with
            errors := st₁.errors ++
              ["Failed to build assets job config for project " ++ proj ++ ": " ++ e] }
      | Except.ok endUserAgents =>
          let fullAgents :=
            { id := primaryId, role := Role.primary_storage, permission := "rw",
              path := mkOsPath primaryAssetsPath } :: endUserAgents
          { st₁ with
            expectedAssetsJobs :=
              alistInsert st₁.expectedAssetsJobs jobName
                { name := jobName, jtype := JobType.assets, artists := projectArtists,
                  project := proj, shot := none, primaryPath := primaryAssetsPath,
                  agents := fullAgents,
                  description :=
                    "Assets for " ++ proj ++ " - Artists: " ++ joinComma projectArtists },
            artistsProcessed := setUnion st₁.artistsProcessed projectArtists }

/-- One iteration of `for artist, projects in sg_state['artist_projects'].items()`
(source lines 604–676). -/
def assetsArtistStep (cfg : Config) (ags : Option (List RemoteAgent)) (primaryId : String)
    (aps : List (String × List String)) (st : BuildSt) (p : String × List String) : BuildSt :=
  if (List.lookup p.1 cfg.targetAgents).isSome then
    p.2.foldl (assetsProjStep cfg ags primaryId aps) st
  else st

/-- The empty build accumulator. -/
def initBuildSt : BuildSt :=
  { processedShots := [], processedAssetProjects := [], expectedShotJobs := [],
    expectedAssetsJobs := [], artistsProcessed := [], errors := [] }

/-- The whole build phase: the shot loop followed by the assets loop. -/
def buildExpected (cfg : Config) (ags : Option (List RemoteAgent)) (primaryId : String)
    (snap : Snapshot) : BuildSt :=
  snap.artistProjects.foldl (assetsArtistStep cfg ags primaryId snap.artistProjects)
    (snap.shots.foldl (shotStep cfg ags primaryId) initBuildSt)

/-- `all_expected_jobs = {**expected_shot_jobs, **expected_assets_jobs}`
(source line 679). -/
def mergeMaps (m₁ m₂ : List (String × JobConfig)) : List (String × JobConfig) :=
  m₂.foldl (fun m kv => alistInsert m kv.1 kv.2) m₁

/-- The merged expected-job dict of a run. -/
def allExpectedOf (cfg : Config) (ags : Option (List RemoteAgent)) (primaryId : String)
    (snap : Snapshot) : List (String × JobConfig) :=
  mergeMaps (buildExpected cfg ags primaryId snap).expectedShotJobs
    (buildExpected cfg ags primaryId snap).expectedAssetsJobs

/-! ### Remote inventory (sync step 1) -/

/-- `get_all_hybrid_work_jobs` (source lines 178–192): all jobs whose name
starts with `HybridWork_`; an `ApiError` from `GET /jobs` (`jobsOpt = none`)
is swallowed and yields the empty list. -/
def existingOf (jobsOpt : Option (List RemoteJob)) : List RemoteJob :=
  match jobsOpt with
  | none => []
  | some js => js.filter (fun j => pyStartswith j.name "HybridWork_")

/-- `existing_job_names = {job.get('name'): job for job in existing_jobs}`
(source line 680). -/
def jobMapOf (l : List RemoteJob) : List (String × RemoteJob) :=
  l.foldl (fun m j => alistInsert m j.name j) []

/-! ### Result record and apply phase (sync steps 3–6, source lines 678–799) -/

/-- One entry of `results['details']`; only the fields common to all three
detail shapes are modelled. -/
structure Detail where
  dtype : String
  jobName : String
  action : String
deriving Repr, DecidableEq

/-- The `results` dict.  `artists_processed` is an `Option` because the
abort path of the source returns a dict *without* that key; the normal path
returns `some` of the size of the accumulated set.  The `*Calls` lists, the
`failed*` counters and `inventoryAfter` are ghost instrumentation: they
record, in order, the names for which a create / delete / update API call is
issued, how many of each failed, and the remote job list that the issued
calls leave behind (deletes remove by job id, creates append the submitted
payload under the id returned by the orchestration system, updates replace
the matching job's agents array). -/
structure SyncResult where
  shot_jobs_created : Nat
  shot_jobs_updated : Nat
  shot_jobs_deleted : Nat
  assets_jobs_created : Nat
  assets_jobs_updated : Nat
  assets_jobs_deleted : Nat
  artists_processed : Option Nat
  errors : List String
  details : List Detail
  createCalls : List String
  deleteCalls : List String
  updateCalls : List String
  failedCreates : Nat
  failedDeletes : Nat
  failedUpdates : Nat
  inventoryAfter : List RemoteJob
deriving Repr, DecidableEq

/-- The result state entering the apply phase: all counters zero, the build
errors carried over, and the ghost inventory equal to the fetched job list. -/
def initResult (bld : BuildSt) (inv : List RemoteJob) : SyncResult :=
  { shot_jobs_created := 0, shot_jobs_updated := 0, shot_jobs_deleted := 0,
    assets_jobs_created := 0, assets_jobs_updated := 0, assets_jobs_deleted := 0,
    artists_processed := none, errors := bld.errors, details := [],
    createCalls := [], deleteCalls := [], updateCalls := [],
    failedCreates := 0, failedDeletes := 0, failedUpdates := 0,
    inventoryAfter := inv }

/-- One iteration of the delete loop (sync step 4, source lines 694–718).
`em` is the `existing_job_names` dict; on success the deletion is counted as
an assets deletion iff `'_Assets' in job_name` (substring test), on failure
one error message is appended and the loop continues. -/
def deleteStep (deleteRes : Nat → Except String Unit) (em : List (String × RemoteJob))
    (res : SyncResult) (jobName : String) : SyncResult :=
  match List.lookup jobName em with
  | none => res
  | some job =>
      match deleteRes job.id with
      | Except.ok _ =>
          let isAssets := hasSubstring jobName "_Assets"
          { res with
            deleteCalls := res.deleteCalls ++ [jobName],
            assets_jobs_deleted :=
              if isAssets then res.assets_jobs_deleted + 1 else res.assets_jobs_deleted,
            shot_jobs_deleted :=
              if isAssets then res.shot_jobs_deleted else res.shot_jobs_deleted + 1,
            details := res.details ++
              [{ dtype := if isAssets then "assets" else "shot", jobName := jobName,
                 action := "deleted" }],
            inventoryAfter := res.inventoryAfter.filter (fun j => j.id != job.id) }
      | Except.error e =>
          { res with
            deleteCalls := res.deleteCalls ++ [jobName],
            failedDeletes := res.failedDeletes + 1,
            errors := res.errors ++ ["Failed to delete job " ++ jobName ++ ": " ++ e] }

/-- One iteration of the create loop (sync step 5, source lines 721–755).
On success the creation is counted by the expected job's `type`; on failure
one error message is appended and the loop continues. -/
def createStep (createRes : String → Except String Nat)
    (expected : List (String × JobConfig)) (res : SyncResult) (jobName : String) :
    SyncResult :=
  match List.lookup jobName expected with
  | none => res
  | some jc =>
      match createRes jobName with
      | Except.ok jid =>
          let isAssets := jc.jtype == JobType.assets
          { res with
            createCalls := res.createCalls ++ [jobName],
            assets_jobs_created :=
              if isAssets then res.assets_jobs_created + 1 else res.assets_jobs_created,
            shot_jobs_created :=
              if isAssets then res.shot_jobs_created else res.shot_jobs_created + 1,
            details := res.details ++
              [{ dtype := if isAssets then "assets" else "shot", jobName := jobName,
                 action := "created" }],
            inventoryAfter :=
              res.inventoryAfter ++ [{ id := jid, name := jobName, agents := jc.agents }] }
      | Except.error e =>
          { res with
            createCalls := res.createCalls ++ [jobName],
            failedCreates := res.failedCreates + 1,
            errors := res.errors ++ ["Failed to create job " ++ jobName ++ ": " ++ e] }

/-- One iteration of the update-check loop (sync step 6, source lines
758–790).  With equal enduser id sets no call is issued; otherwise
`update_job_agents` is called (source lines 215–236), which swallows any
`ApiError` and reports success as a Bool — so a failed update appends *no*
error message and records nothing. -/
def updateStep (updOk : Nat → Bool) (em : List (String × RemoteJob))
    (expected : List (String × JobConfig)) (res : SyncResult) (jobName : String) :
    SyncResult :=
  match List.lookup jobName em, List.lookup jobName expected with
  | some job, some jc =>
      if compare_job_agents job jc.agents then res
      else if updOk job.id then
        let isAssets := jc.jtype == JobType.assets
        { res with
          updateCalls := res.updateCalls ++ [jobName],
          assets_jobs_updated :=
            if isAssets then res.assets_jobs_updated + 1 else res.assets_jobs_updated,
          shot_jobs_updated :=
            if isAssets then res.shot_jobs_updated else res.shot_jobs_updated + 1,
          details := res.details ++
            [{ dtype := if isAssets then "assets" else "shot", jobName := jobName,
               action := "updated" }],
          inventoryAfter :=
            res.inventoryAfter.map
              (fun j => if j.id == job.id then { j with agents := jc.agents } else j) }
      else
        { res with
          updateCalls := res.updateCalls ++ [jobName],
          failedUpdates := res.failedUpdates + 1 }
  | _, _ => res

/-- The abort-path result of the primary-storage-resolution failure (source
lines 491–501): the literal dict returned there — note it has *no*
`artists_processed` key, modelled as `none`.  No API call has been issued,
so the ghost inventory is the untouched remote job list. -/
def abortResult (e : String) (inv : List RemoteJob) : SyncResult :=
  { shot_jobs_created := 0, shot_jobs_updated := 0, shot_jobs_deleted := 0,
    assets_jobs_created := 0, assets_jobs_updated := 0, assets_jobs_deleted := 0,
    artists_processed := none,
    errors := ["Failed to get primary storage agent: " ++ e], details := [],
    createCalls := [], deleteCalls := [], updateCalls := [],
    failedCreates := 0, failedDeletes := 0, failedUpdates := 0,
    inventoryAfter := inv }

/-- `jobs_to_delete` of a run (existing names not expected; the source uses an
unordered Python set — modelled in the existing dict's insertion order, which
is sound for every property stated below, all order-insensitive). -/
def toDeleteOf (em : List (String × RemoteJob)) (expected : List (String × JobConfig)) :
    List String :=
  (em.map Prod.fst).filter (fun n => (List.lookup n expected).isNone)

/-- `jobs_to_create` of a run (expected names that do not exist). -/
def toCreateOf (em : List (String × RemoteJob)) (expected : List (String × JobConfig)) :
    List String :=
  (expected.map Prod.fst).filter (fun n => (List.lookup n em).isNone)

/-- `jobs_to_check_update` of a run (names both expected and existing). -/
def toCheckOf (em : List (String × RemoteJob)) (expected : List (String × JobConfig)) :
    List String :=
  (expected.map Prod.fst).filter (fun n => (List.lookup n em).isSome)

/-- `sync_resilio_to_shotgrid_state` (source lines 466–799), parametrised over
the individual oracle components. -/
def syncCore (cfg : Config) (ags : Option (List RemoteAgent))
    (jobsOpt : Option (List RemoteJob)) (createRes : String → Except String Nat)
    (deleteRes : Nat → Except String Unit) (updOk : Nat → Bool) (snap : Snapshot) :
    SyncResult :=
  match get_primary_storage_agent_id cfg ags with
  | Except.error e => abortResult e (jobsOpt.getD [])
  | Except.ok primaryId =>
      let bld := buildExpected cfg ags primaryId snap
      let expected := mergeMaps bld.expectedShotJobs bld.expectedAssetsJobs
      let em := jobMapOf (existingOf jobsOpt)
      let res₁ := (toDeleteOf em expected).foldl (deleteStep deleteRes em)
        (initResult bld (jobsOpt.getD []))
      let res₂ := (toCreateOf em expected).foldl (createStep createRes expected) res₁
      let res₃ := (toCheckOf em expected).foldl (updateStep updOk em expected) res₂
      { res₃ with artists_processed := some bld.artistsProcessed.length }

/-- The remote collaborator: agent directory, job list, and per-call
outcomes.  `none` in the first two components models the underlying GET
raising `ApiError`; the `Except.error` payloads are the exception texts that
the sync loop interpolates into its error messages. -/
structure Oracle where
  agents : Option (List RemoteAgent)
  jobs : Option (List RemoteJob)
  createRes : String → Except String Nat
  deleteRes : Nat → Except String Unit
  updOk : Nat → Bool

/-- `sync_resilio_to_shotgrid_state` against an oracle. -/
def sync (cfg : Config) (o : Oracle) (snap : Snapshot) : SyncResult :=
  syncCore cfg o.agents o.jobs o.createRes o.deleteRes o.updOk snap

/-! ### Toolkit lemmas -/

theorem foldlPreserves {α β : Type} (P : β → Prop) (f : β → α → β) :
    ∀ (l : List α) (b : β), (∀ x ∈ l, ∀ r, P r → P (f r x)) → P b → P (l.foldl f b)
  | [], _, _, hb => hb
  | a :: l, b, h, hb =>
      foldlPreserves P f l (f b a)
        (fun x hx r hr => h x (by simp [hx]) r hr)
        (h a (by simp) b hb)

theorem lookup_isSome_of_mem_keys {α : Type} {m : List (String × α)} {n : String}
    (h : n ∈ m.map Prod.fst) : (List.lookup n m).isSome = true := by
  induction m with
  | nil => simp at h
  | cons kv rest ih =>
      by_cases hk : (n == kv.1) = true
      · simp [List.lookup, hk]
      · simp only [List.map_cons, List.mem_cons] at h
        rcases h with h | h
        · exact absurd (by simp [h]) hk
        · simpa [List.lookup, hk] using ih h

theorem mem_keys_of_lookup_isSome {α : Type} {m : List (String × α)} {n : String}
    (h : (List.lookup n m).isSome = true) : n ∈ m.map Prod.fst := by
  induction m with
  | nil => simp [List.lookup] at h
  | cons kv rest ih =>
      by_cases hk : (n == kv.1) = true
      · simp [show n = kv.1 from by simpa using hk]
      · simp only [List.lookup, hk] at h
        simp [ih h]

theorem lookup_alistInsert_self {α : Type} (m : List (String × α)) (k : String) (v : α) :
    List.lookup k (alistInsert m k v) = some v := by
  induction m with
  | nil => simp [alistInsert, List.lookup]
  | cons kv rest ih =>
      by_cases hk : (kv.1 == k) = true
      · simp [alistInsert, hk, List.lookup]
      · simpa [alistInsert, hk, List.lookup, Ne.symm, BEq.symm,
          show (k == kv.1) = false from by
            cases hkk : (k == kv.1) <;> simp_all [BEq.comm]] using ih

theorem lookup_alistInsert_ne {α : Type} (m : List (String × α)) (k n : String) (v : α)
    (h : n ≠ k) : List.lookup n (alistInsert m k v) = List.lookup n m := by
  have hnk : (n == k) = false := by simp [h]
  induction m with
  | nil => simp [alistInsert, List.lookup, hnk]
  | cons kv rest ih =>
      by_cases hk : (kv.1 == k) = true
      · have hkk : kv.1 = k := by simpa using hk
        simp [alistInsert, hk, List.lookup, hkk, hnk]
      · by_cases hn : (n == kv.1) = true
        · simp [alistInsert, hk, List.lookup, hn]
        · simp [alistInsert, hk, List.lookup, hn, ih]

theorem mem_keys_alistInsert {α : Type} (m : List (String × α)) (k n : String) (v : α) :
    n ∈ (alistInsert m k v).map Prod.fst ↔ n = k ∨ n ∈ m.map Prod.fst := by
  induction m with
  | nil => simp [alistInsert]
  | cons kv rest ih =>
      by_cases hk : (kv.1 == k) = true
      · have hkk : kv.1 = k := by simpa using hk
        subst hkk
        simp only [alistInsert, hk, if_pos, List.map_cons, List.mem_cons]
        tauto
      · simp only [alistInsert, hk, Bool.false_eq_true, if_false, List.map_cons,
          List.mem_cons, ih]
        tauto

/-! Frame lemmas: each apply-phase step leaves the fields it does not own
unchanged. -/

theorem deleteStep_frame (dr : Nat → Except String Unit) (em : List (String × RemoteJob))
    (res : SyncResult) (n : String) :
    (deleteStep dr em res n).createCalls = res.createCalls ∧
    (deleteStep dr em res n).updateCalls = res.updateCalls ∧
    (deleteStep dr em res n).shot_jobs_created = res.shot_jobs_created ∧
    (deleteStep dr em res n).assets_jobs_created = res.assets_jobs_created ∧
    (deleteStep dr em res n).shot_jobs_updated = res.shot_jobs_updated ∧
    (deleteStep dr em res n).assets_jobs_updated = res.assets_jobs_updated ∧
    (deleteStep dr em res n).failedCreates = res.failedCreates ∧
    (deleteStep dr em res n).failedUpdates = res.failedUpdates ∧
    (deleteStep dr em res n).artists_processed = res.artists_processed := by
  unfold deleteStep
  cases List.lookup n em with
  | none => simp
  | some job => cases h : dr job.id <;> simp [h]

theorem createStep_frame (cr : String → Except String Nat)
    (expected : List (String × JobConfig)) (res : SyncResult) (n : String) :
    (createStep cr expected res n).deleteCalls = res.deleteCalls ∧
    (createStep cr expected res n).updateCalls = res.updateCalls ∧
    (createStep cr expected res n).shot_jobs_deleted = res.shot_jobs_deleted ∧
    (createStep cr expected res n).assets_jobs_deleted = res.assets_jobs_deleted ∧
    (createStep cr expected res n).shot_jobs_updated = res.shot_jobs_updated ∧
    (createStep cr expected res n).assets_jobs_updated = res.assets_jobs_updated ∧
    (createStep cr expected res n).failedDeletes = res.failedDeletes ∧
    (createStep cr expected res n).failedUpdates = res.failedUpdates ∧
    (createStep cr expected res n).artists_processed = res.artists_processed := by
  unfold createStep
  cases List.lookup n expected with
  | none => simp
  | some jc => cases h : cr n <;> simp [h]

theorem updateStep_frame (u : Nat → Bool) (em : List (String × RemoteJob))
    (expected : List (String × JobConfig)) (res : SyncResult) (n : String) :
    (updateStep u em expected res n).createCalls = res.createCalls ∧
    (updateStep u em expected res n).deleteCalls = res.deleteCalls ∧
    (updateStep u em expected res n).shot_jobs_created = res.shot_jobs_created ∧
    (updateStep u em expected res n).assets_jobs_created = res.assets_jobs_created ∧
    (updateStep u em expected res n).shot_jobs_deleted = res.shot_jobs_deleted ∧
    (updateStep u em expected res n).assets_jobs_deleted = res.assets_jobs_deleted ∧
    (updateStep u em expected res n).failedCreates = res.failedCreates ∧
    (updateStep u em expected res n).failedDeletes = res.failedDeletes ∧
    (updateStep u em expected res n).errors = res.errors ∧
    (updateStep u em expected res n).artists_processed = res.artists_processed := by
  unfold updateStep
  cases List.lookup n em with
  | none => simp
  | some job =>
      cases List.lookup n expected with
      | none => simp
      | some jc =>
          by_cases h : compare_job_agents job jc.agents = true
          · simp [h]
          · by_cases h₂ : u job.id = true <;> simp [h, h₂]

/-- A fold leaves any field unchanged that its step leaves unchanged. -/
theorem foldlField {α β γ : Type} (f : β → γ) (g : β → α → β)
    (hg : ∀ r n, f (g r n) = f r) :
    ∀ (names : List α) (res : β), f (names.foldl g res) = f res
  | [], _ => rfl
  | n :: names, res => by
      rw [List.foldl_cons, foldlField f g hg names (g res n), hg]

/-- The create loop records a create call for every processed name that is an
expected-job key, in order, success or failure alike. -/
theorem createCalls_foldl (cr : String → Except String Nat)
    (expected : List (String × JobConfig)) :
    ∀ (names : List String) (res : SyncResult),
      (∀ n ∈ names, (List.lookup n expected).isSome = true) →
      (names.foldl (createStep cr expected) res).createCalls = res.createCalls ++ names
  | [], res, _ => by simp
  | n :: names, res, h => by
      have hn := h n (by simp)
      obtain ⟨jc, hjc⟩ := Option.isSome_iff_exists.mp hn
      have hstep : (createStep cr expected res n).createCalls = res.createCalls ++ [n] := by
        unfold createStep
        rw [hjc]
        cases hc : cr n <;> simp [hc]
      rw [List.foldl_cons,
        createCalls_foldl cr expected names _ (fun m hm => h m (by simp [hm])), hstep]
      simp

/-- The delete loop records a delete call for every processed name that is an
existing-job key, in order, success or failure alike. -/
theorem deleteCalls_foldl (dr : Nat → Except String Unit) (em : List (String × RemoteJob)) :
    ∀ (names : List String) (res : SyncResult),
      (∀ n ∈ names, (List.lookup n em).isSome = true) →
      (names.foldl (deleteStep dr em) res).deleteCalls = res.deleteCalls ++ names
  | [], res, _ => by simp
  | n :: names, res, h => by
      have hn := h n (by simp)
      obtain ⟨job, hjob⟩ := Option.isSome_iff_exists.mp hn
      have hstep : (deleteStep dr em res n).deleteCalls = res.deleteCalls ++ [n] := by
        unfold deleteStep
        rw [hjob]
        cases hd : dr job.id <;> simp [hd]
      rw [List.foldl_cons,
        deleteCalls_foldl dr em names _ (fun m hm => h m (by simp [hm])), hstep]
      simp

/-! ### Claim C4 -/

/-- C4 (amended): if the primary-storage agent cannot be resolved at the start
of the run, the run aborts before any job is built or mutation issued and
returns a result with exactly one error message, all six created/updated/
deleted counts zero, an empty `details` list, and — where the claim expects an
`artists_processed` count of zero — *no* `artists_processed` entry at all
(the source's abort dict omits that key, modelled as `none`). -/
theorem C4_primary_resolution_abort (cfg : Config) (o : Oracle) (snap : Snapshot)
    (e : String) (h : get_primary_storage_agent_id cfg o.agents = Except.error e) :
    (sync cfg o snap).errors = ["Failed to get primary storage agent: " ++ e] ∧
    (sync cfg o snap).shot_jobs_created = 0 ∧
    (sync cfg o snap).shot_jobs_updated = 0 ∧
    (sync cfg o snap).shot_jobs_deleted = 0 ∧
    (sync cfg o snap).assets_jobs_created = 0 ∧
    (sync cfg o snap).assets_jobs_updated = 0 ∧
    (sync cfg o snap).assets_jobs_deleted = 0 ∧
    (sync cfg o snap).details = [] ∧
    (sync cfg o snap).artists_processed = none ∧
    (sync cfg o snap).createCalls = [] ∧
    (sync cfg o snap).deleteCalls = [] ∧
    (sync cfg o snap).updateCalls = [] := by
  simp [sync, syncCore, h, abortResult]

/-- The configuration of the concrete abort scenario: no configured primary
agent id and an agent directory without the configured name. -/
def c4Cfg : Config :=
  { targetAgents := [],
    primaryStorage := { agentId := "", agentName := "PS", basePath := "/mnt" },
    pathTemplates := { shotsTemplate := "", assetsTemplate := "" } }

/-- An oracle with an empty agent directory and an empty job list. -/
def c4Oracle : Oracle :=
  { agents := some [], jobs := some [],
    createRes := fun _ => Except.error "e", deleteRes := fun _ => Except.ok (),
    updOk := fun _ => false }

/-- C4 counterexample: on a run whose primary-storage resolution fails, the
returned result does *not* carry a zero `artists_processed` count — the
abort-path dict has no `artists_processed` key at all (`none`), while all
other asserted fields do hold.  This refutes the claim exactly in its
`artists_processed` conjunct. -/
theorem C4_counterexample :
    (sync c4Cfg c4Oracle { shots := [], artistProjects := [] }).artists_processed ≠ some 0 ∧
    (sync c4Cfg c4Oracle { shots := [], artistProjects := [] }).artists_processed = none ∧
    (sync c4Cfg c4Oracle { shots := [], artistProjects := [] }).errors.length = 1 := by
  refine ⟨by decide, by decide, by decide⟩

/-- Witness for C4: the amended theorem applied at the concrete abort
scenario. -/
theorem C4_primary_resolution_abort_witness :
    (sync c4Cfg c4Oracle { shots := [], artistProjects := [] }).errors =
      ["Failed to get primary storage agent: Primary storage agent \x27PS\x27 not found"] ∧
    (sync c4Cfg c4Oracle { shots := [], artistProjects := [] }).details = [] :=
  ⟨(C4_primary_resolution_abort c4Cfg c4Oracle { shots := [], artistProjects := [] }
      ("Primary storage agent \x27PS\x27 not found") (by rfl)).1,
   (C4_primary_resolution_abort c4Cfg c4Oracle { shots := [], artistProjects := [] }
      ("Primary storage agent \x27PS\x27 not found") (by rfl)).2.2.2.2.2.2.2.1⟩

/-! ### Claim C9 -/

/-- A failed job fetch and an empty job list are indistinguishable to the
whole run: `get_all_hybrid_work_jobs` swallows the `ApiError` and returns
`[]`, which is exactly what an empty inventory yields. -/
theorem syncCore_none_eq (cfg : Config) (ags : Option (List RemoteAgent))
    (cr : String → Except String Nat) (dr : Nat → Except String Unit) (u : Nat → Bool)
    (snap : Snapshot) :
    syncCore cfg ags none cr dr u snap = syncCore cfg ags (some []) cr dr u snap := by
  unfold syncCore
  cases hp : get_primary_storage_agent_id cfg ags <;> rfl

/-- On a run that sees no existing jobs, no delete call is issued and a create
call is issued for exactly the expected-job names, in order. -/
theorem syncCore_none_calls (cfg : Config) (ags : Option (List RemoteAgent))
    (cr : String → Except String Nat) (dr : Nat → Except String Unit) (u : Nat → Bool)
    (snap : Snapshot) (pid : String)
    (hp : get_primary_storage_agent_id cfg ags = Except.ok pid) :
    (syncCore cfg ags none cr dr u snap).deleteCalls = [] ∧
    (syncCore cfg ags none cr dr u snap).createCalls =
      (allExpectedOf cfg ags pid snap).map Prod.fst := by
  unfold syncCore
  rw [hp]
  simp only [existingOf, jobMapOf, List.foldl_nil, toDeleteOf, toCreateOf, toCheckOf,
    List.map_nil, List.filter_nil, List.lookup_nil, Option.isNone_none, Option.isSome_none,
    Bool.false_eq_true, List.filter_false, List.filter_true, allExpectedOf]
  constructor
  · rw [foldlField SyncResult.deleteCalls _
      (fun r n => (createStep_frame cr _ r n).1)]
    rfl
  · rw [createCalls_foldl cr _ _ _ (fun n hn => lookup_isSome_of_mem_keys hn)]
    rfl

/-- C9: if the fetch of existing managed jobs fails with an API error
(`GET /jobs` raising, modelled as `o.jobs = none`), the reconciler proceeds
exactly as if zero managed jobs existed: the entire result — `errors`
included, so no message records the fetch failure — equals that of the same
run over an empty inventory, the to-delete set is empty (no delete call is
issued), and a create call is issued for every expected job name. -/
theorem C9_fetch_failure_empty_inventory (cfg : Config) (o : Oracle) (snap : Snapshot)
    (h : o.jobs = none) :
    sync cfg o snap = sync cfg { o with jobs := some [] } snap ∧
    (sync cfg o snap).deleteCalls = [] ∧
    ∀ pid, get_primary_storage_agent_id cfg o.agents = Except.ok pid →
      ∀ n ∈ (allExpectedOf cfg o.agents pid snap).map Prod.fst,
        n ∈ (sync cfg o snap).createCalls := by
  have hsync : sync cfg o snap =
      syncCore cfg o.agents none o.createRes o.deleteRes o.updOk snap := by
    simp [sync, h]
  refine ⟨?_, ?_, ?_⟩
  · rw [hsync]
    exact syncCore_none_eq cfg o.agents o.createRes o.deleteRes o.updOk snap
  · rcases hp : get_primary_storage_agent_id cfg o.agents with e | pid
    · rw [hsync]
      unfold syncCore
      rw [hp]
      rfl
    · rw [hsync]
      exact (syncCore_none_calls cfg o.agents o.createRes o.deleteRes o.updOk snap pid hp).1
  · intro pid hp n hn
    rw [hsync,
      (syncCore_none_calls cfg o.agents o.createRes o.deleteRes o.updOk snap pid hp).2]
    exact hn

/-- A small concrete configuration shared by several witnesses: one artist
`A` mapped to agent `42`, primary storage agent `1`. -/
def wCfg : Config :=
  { targetAgents := [("A", { agentId := "42", agentName := "", basePath := "/home/a" })],
    primaryStorage := { agentId := "1", agentName := "", basePath := "/mnt/p" },
    pathTemplates :=
      { shotsTemplate := "$\x7bPROJECT\x7d/$\x7bSEQUENCE\x7d/$\x7bSHOT\x7d",
        assetsTemplate := "$\x7bPROJECT\x7d/Assets" } }

/-- A snapshot with one shot `S1` of project `P` assigned to `A`. -/
def wSnap : Snapshot :=
  { shots := [{ code := "S1", tankName := "P", sequence := "SEQ", assignedArtists := ["A"] }],
    artistProjects := [("A", ["P"])] }

/-- An oracle whose job fetch fails. -/
def c9Oracle : Oracle :=
  { agents := some [], jobs := none, createRes := fun _ => Except.ok 7,
    deleteRes := fun _ => Except.ok (), updOk := fun _ => true }

/-- Witness for C9: on the concrete scenario with a failed job fetch, the run
issues no delete call and schedules the expected shot job for creation. -/
theorem C9_fetch_failure_empty_inventory_witness :
    c9Oracle.jobs = none ∧
    "HybridWork_P_S1" ∈ (sync wCfg c9Oracle wSnap).createCalls ∧
    (sync wCfg c9Oracle wSnap).deleteCalls = [] :=
  ⟨rfl,
   (C9_fetch_failure_empty_inventory wCfg c9Oracle wSnap rfl).2.2 "1" (by rfl)
     "HybridWork_P_S1" (by decide),
   (C9_fetch_failure_empty_inventory wCfg c9Oracle wSnap rfl).2.1⟩

/-! ### Claim C2 -/

/-- The update-check step touches `updateCalls` by at most appending the
processed name. -/
theorem updateStep_updateCalls_sub (u : Nat → Bool) (em : List (String × RemoteJob))
    (expected : List (String × JobConfig)) (r : SyncResult) (x : String) :
    (updateStep u em expected r x).updateCalls = r.updateCalls ∨
    (updateStep u em expected r x).updateCalls = r.updateCalls ++ [x] := by
  unfold updateStep
  cases List.lookup x em with
  | none => exact Or.inl rfl
  | some job =>
      cases List.lookup x expected with
      | none => exact Or.inl rfl
      | some jc =>
          by_cases h : compare_job_agents job jc.agents = true
          · simp [h]
          · by_cases h₂ : u job.id = true <;> simp [h, h₂]

/-- C2: for a job name present in both the expected and existing maps, if the
existing job's enduser agent id set equals the expected job's enduser id set
(order, paths and the primary_storage entry all ignored —
`compare_job_agents`), no update call is issued for that name, regardless of
how the paths compare. -/
theorem C2_equal_enduser_sets_no_update (cfg : Config) (o : Oracle) (snap : Snapshot)
    (pid : String) (n : String) (job : RemoteJob) (jc : JobConfig)
    (hp : get_primary_storage_agent_id cfg o.agents = Except.ok pid)
    (hjob : List.lookup n (jobMapOf (existingOf o.jobs)) = some job)
    (hexp : List.lookup n (allExpectedOf cfg o.agents pid snap) = some jc)
    (hcmp : compare_job_agents job jc.agents = true) :
    n ∉ (sync cfg o snap).updateCalls := by
  simp only [allExpectedOf] at hexp
  unfold sync syncCore
  rw [hp]
  simp only
  refine foldlPreserves (fun r : SyncResult => n ∉ r.updateCalls) _ _ _ ?_ ?_
  · intro x hx r hr
    by_cases hxn : x = n
    · subst hxn
      have hid : updateStep o.updOk (jobMapOf (existingOf o.jobs))
          (mergeMaps (buildExpected cfg o.agents pid snap).expectedShotJobs
            (buildExpected cfg o.agents pid snap).expectedAssetsJobs) r x = r := by
        unfold updateStep
        rw [hjob, hexp]
        simp [hcmp]
      rw [hid]
      exact hr
    · rcases updateStep_updateCalls_sub o.updOk _ _ r x with h | h
      · rw [h]; exact hr
      · rw [h]
        simp only [List.mem_append, List.mem_singleton]
        rintro (hc | hc)
        · exact hr hc
        · exact hxn hc.symm
  · have h₂ := foldlField SyncResult.updateCalls
      (createStep o.createRes
        (mergeMaps (buildExpected cfg o.agents pid snap).expectedShotJobs
          (buildExpected cfg o.agents pid snap).expectedAssetsJobs))
      (fun r m => (createStep_frame _ _ r m).2.1)
    have h₁ := foldlField SyncResult.updateCalls
      (deleteStep o.deleteRes (jobMapOf (existingOf o.jobs)))
      (fun r m => (deleteStep_frame _ _ r m).2.1)
    simp only
    rw [h₂, h₁]
    simp [initResult]

/-- The expected shot-job configuration that `wCfg`/`wSnap` produce for
`HybridWork_P_S1` (checked by evaluation in the witness below). -/
def wJc : JobConfig :=
  { name := "HybridWork_P_S1", jtype := JobType.shot, artists := ["A"], project := "P",
    shot := some "S1", primaryPath := "/mnt/p/P/SEQ/S1",
    agents :=
      [{ id := "1", role := Role.primary_storage, permission := "rw",
         path := mkOsPath "/mnt/p/P/SEQ/S1" },
       { id := "42", role := Role.enduser, permission := "srw",
         path := mkOsPath "/home/a/P/SEQ/S1" }],
    description := "Shot S1 for: A" }

/-- An existing remote job with the same enduser id set as `wJc` but entirely
different paths. -/
def c2Job : RemoteJob :=
  { id := 5, name := "HybridWork_P_S1",
    agents :=
      [{ id := "1", role := Role.primary_storage, permission := "rw",
         path := mkOsPath "/mnt/old/P/SEQ/S1" },
       { id := "42", role := Role.enduser, permission := "srw",
         path := mkOsPath "/elsewhere/P/SEQ/S1" }] }

/-- An oracle whose inventory holds exactly `c2Job`. -/
def c2Oracle : Oracle :=
  { agents := some [], jobs := some [c2Job], createRes := fun _ => Except.ok 7,
    deleteRes := fun _ => Except.ok (), updOk := fun _ => true }

/-- Witness for C2: on the concrete scenario the enduser id sets agree while
every path differs, and no update call is issued. -/
theorem C2_equal_enduser_sets_no_update_witness :
    compare_job_agents c2Job wJc.agents = true ∧
    c2Job.agents ≠ wJc.agents ∧
    "HybridWork_P_S1" ∉ (sync wCfg c2Oracle wSnap).updateCalls :=
  ⟨by decide, by decide,
   C2_equal_enduser_sets_no_update wCfg c2Oracle wSnap "1" "HybridWork_P_S1" c2Job wJc
     (by rfl) (by decide) (by decide) (by decide)⟩

/-! ### Claim C7 -/

/-- Invariant tying the two deletion counters and the deletion details to the
`'_Assets' in job_name` classification test of the delete loop. -/
def DelClass (r : SyncResult) : Prop :=
  (r.details.filter (fun d => d.action == "deleted")).countP
      (fun d => hasSubstring d.jobName "_Assets") = r.assets_jobs_deleted ∧
  (r.details.filter (fun d => d.action == "deleted")).countP
      (fun d => !hasSubstring d.jobName "_Assets") = r.shot_jobs_deleted ∧
  ∀ d ∈ r.details, d.action = "deleted" →
    (d.dtype = "assets" ↔ hasSubstring d.jobName "_Assets" = true)

theorem deleteStep_DelClass (dr : Nat → Except String Unit) (em : List (String × RemoteJob))
    (r : SyncResult) (n : String) (h : DelClass r) : DelClass (deleteStep dr em r n) := by
  obtain ⟨h₁, h₂, h₃⟩ := h
  rcases hl : List.lookup n em with _ | job
  · simp only [deleteStep, hl]
    exact ⟨h₁, h₂, h₃⟩
  · rcases hd : dr job.id with e | u
    · simp only [deleteStep, hl, hd]
      exact ⟨h₁, h₂, h₃⟩
    · simp only [deleteStep, hl, hd]
      refine ⟨?_, ?_, ?_⟩
      · by_cases ha : hasSubstring n "_Assets" = true <;>
          simp [ha, List.filter_append, h₁]
      · by_cases ha : hasSubstring n "_Assets" = true <;>
          simp [ha, List.filter_append, h₂]
      · intro d hdm hdel
        simp only [List.mem_append, List.mem_singleton] at hdm
        rcases hdm with hdm | hdm
        · exact h₃ d hdm hdel
        · subst hdm
          by_cases ha : hasSubstring n "_Assets" = true <;> simp [ha]

theorem createStep_DelClass (cr : String → Except String Nat)
    (expected : List (String × JobConfig)) (r : SyncResult) (n : String)
    (h : DelClass r) : DelClass (createStep cr expected r n) := by
  obtain ⟨h₁, h₂, h₃⟩ := h
  rcases hl : List.lookup n expected with _ | jc
  · simp only [createStep, hl]
    exact ⟨h₁, h₂, h₃⟩
  · rcases hc : cr n with e | jid
    · simp only [createStep, hl, hc]
      exact ⟨h₁, h₂, h₃⟩
    · simp only [createStep, hl, hc]
      refine ⟨?_, ?_, ?_⟩
      · simp [List.filter_append, h₁]
      · simp [List.filter_append, h₂]
      · intro d hdm hdel
        simp only [List.mem_append, List.mem_singleton] at hdm
        rcases hdm with hdm | hdm
        · exact h₃ d hdm hdel
        · subst hdm
          simp at hdel

theorem updateStep_DelClass (u : Nat → Bool) (em : List (String × RemoteJob))
    (expected : List (String × JobConfig)) (r : SyncResult) (n : String)
    (h : DelClass r) : DelClass (updateStep u em expected r n) := by
  obtain ⟨h₁, h₂, h₃⟩ := h
  rcases hl : List.lookup n em with _ | job
  · simp only [updateStep, hl]
    exact ⟨h₁, h₂, h₃⟩
  · rcases he : List.lookup n expected with _ | jc
    · simp only [updateStep, hl, he]
      exact ⟨h₁, h₂, h₃⟩
    · by_cases hcm : compare_job_agents job jc.agents = true
      · simp only [updateStep, hl, he, hcm, if_true]
        exact ⟨h₁, h₂, h₃⟩
      · by_cases hu : u job.id = true
        · simp only [updateStep, hl, he, hcm, if_false, hu, if_true]
          refine ⟨?_, ?_, ?_⟩
          · simp [List.filter_append, h₁]
          · simp [List.filter_append, h₂]
          · intro d hdm hdel
            rcases List.mem_append.mp hdm with hdm₂ | hdm₂
            · exact h₃ d hdm₂ hdel
            · rw [List.mem_singleton] at hdm₂
              subst hdm₂
              simp at hdel
        · simp only [updateStep, hl, he, hcm, if_false, hu]
          exact ⟨h₁, h₂, h₃⟩

/-- Every run satisfies the deletion-classification invariant. -/
theorem syncCore_DelClass (cfg : Config) (ags : Option (List RemoteAgent))
    (jobsOpt : Option (List RemoteJob)) (cr : String → Except String Nat)
    (dr : Nat → Except String Unit) (u : Nat → Bool) (snap : Snapshot) :
    DelClass (syncCore cfg ags jobsOpt cr dr u snap) := by
  unfold syncCore
  cases hp : get_primary_storage_agent_id cfg ags with
  | error e =>
      refine ⟨rfl, rfl, ?_⟩
      intro d hd
      simp [abortResult] at hd
  | ok pid =>
      have base : DelClass (initResult (buildExpected cfg ags pid snap) (jobsOpt.getD [])) := by
        refine ⟨rfl, rfl, ?_⟩
        intro d hd
        simp [initResult] at hd
      have s₁ := foldlPreserves DelClass (deleteStep dr (jobMapOf (existingOf jobsOpt)))
        (toDeleteOf (jobMapOf (existingOf jobsOpt))
          (mergeMaps (buildExpected cfg ags pid snap).expectedShotJobs
            (buildExpected cfg ags pid snap).expectedAssetsJobs)) _
        (fun x _ r hr => deleteStep_DelClass dr _ r x hr) base
      have s₂ := foldlPreserves DelClass
        (createStep cr
          (mergeMaps (buildExpected cfg ags pid snap).expectedShotJobs
            (buildExpected cfg ags pid snap).expectedAssetsJobs))
        (toCreateOf (jobMapOf (existingOf jobsOpt))
          (mergeMaps (buildExpected cfg ags pid snap).expectedShotJobs
            (buildExpected cfg ags pid snap).expectedAssetsJobs)) _
        (fun x _ r hr => createStep_DelClass cr _ r x hr) s₁
      have s₃ := foldlPreserves DelClass
        (updateStep u (jobMapOf (existingOf jobsOpt))
          (mergeMaps (buildExpected cfg ags pid snap).expectedShotJobs
            (buildExpected cfg ags pid snap).expectedAssetsJobs))
        (toCheckOf (jobMapOf (existingOf jobsOpt))
          (mergeMaps (buildExpected cfg ags pid snap).expectedShotJobs
            (buildExpected cfg ags pid snap).expectedAssetsJobs)) _
        (fun x _ r hr => updateStep_DelClass u _ _ r x hr) s₂
      exact s₃

/-- C7 (amended): a successful deletion is counted (and reported in
`details`) as an assets-job deletion iff the job name *contains* the
substring `_Assets` — the source tests `'_Assets' in job_name`, not the
suffix the claim states — and otherwise as a shot-job deletion. -/
theorem C7_deletion_counting (cfg : Config) (o : Oracle) (snap : Snapshot) :
    (((sync cfg o snap).details.filter (fun d => d.action == "deleted")).countP
        (fun d => hasSubstring d.jobName "_Assets") =
      (sync cfg o snap).assets_jobs_deleted) ∧
    (((sync cfg o snap).details.filter (fun d => d.action == "deleted")).countP
        (fun d => !hasSubstring d.jobName "_Assets") =
      (sync cfg o snap).shot_jobs_deleted) ∧
    ∀ d ∈ (sync cfg o snap).details, d.action = "deleted" →
      (d.dtype = "assets" ↔ hasSubstring d.jobName "_Assets" = true) :=
  syncCore_DelClass cfg o.agents o.jobs o.createRes o.deleteRes o.updOk snap

/-- An inventory job whose name contains `_Assets` without ending in it. -/
def c7Job : RemoteJob := { id := 9, name := "HybridWork_P_Assets_0010", agents := [] }

/-- An oracle holding exactly that job, with deletes succeeding. -/
def c7Oracle : Oracle :=
  { agents := some [], jobs := some [c7Job], createRes := fun _ => Except.error "x",
    deleteRes := fun _ => Except.ok (), updOk := fun _ => true }

/-- C7 counterexample: the job `HybridWork_P_Assets_0010` does not carry the
`_Assets` *suffix*, yet its successful deletion is counted as an assets-job
deletion (and not as a shot-job deletion), refuting the claim as stated. -/
theorem C7_counterexample :
    pyEndswith "HybridWork_P_Assets_0010" "_Assets" = false ∧
    (sync wCfg c7Oracle { shots := [], artistProjects := [] }).assets_jobs_deleted = 1 ∧
    (sync wCfg c7Oracle { shots := [], artistProjects := [] }).shot_jobs_deleted = 0 := by
  refine ⟨by decide, by decide, by decide⟩

/-! ### Claim C8 -/

theorem mem_alistInsert_sub {α : Type} (m : List (String × α)) (k : String) (v : α) :
    ∀ p ∈ alistInsert m k v, p = (k, v) ∨ p ∈ m := by
  induction m with
  | nil => simp [alistInsert]
  | cons kv rest ih =>
      by_cases hk : (kv.1 == k) = true
      · simp only [alistInsert, hk, if_true]
        intro p hp
        rcases List.mem_cons.mp hp with h | h
        · exact Or.inl h
        · exact Or.inr (List.mem_cons_of_mem _ h)
      · simp only [alistInsert, hk, Bool.false_eq_true, if_false]
        intro p hp
        rcases List.mem_cons.mp hp with h | h
        · exact Or.inr (h ▸ List.mem_cons_self _ _)
        · rcases ih p h with h₂ | h₂
          · exact Or.inl h₂
          · exact Or.inr (List.mem_cons_of_mem _ h₂)

theorem mem_mergeMaps_sub (m₂ : List (String × JobConfig)) :
    ∀ (m₁ : List (String × JobConfig)) (p : String × JobConfig),
      p ∈ mergeMaps m₁ m₂ → p ∈ m₁ ∨ p ∈ m₂ := by
  induction m₂ with
  | nil => intro m₁ p hp; exact Or.inl hp
  | cons kv rest ih =>
      intro m₁ p hp
      have : p ∈ mergeMaps (alistInsert m₁ kv.1 kv.2) rest := hp
      rcases ih _ p this with h | h
      · rcases mem_alistInsert_sub m₁ kv.1 kv.2 p h with h₂ | h₂
        · exact Or.inr (h₂ ▸ List.mem_cons_self _ _)
        · exact Or.inl h₂
      · exact Or.inr (List.mem_cons_of_mem _ h)

theorem mem_of_lookup_eq_some {α : Type} {m : List (String × α)} {n : String} {v : α}
    (h : List.lookup n m = some v) : (n, v) ∈ m := by
  induction m with
  | nil => simp [List.lookup] at h
  | cons kv rest ih =>
      by_cases hk : (n == kv.1) = true
      · have hn : n = kv.1 := by simpa using hk
        simp only [List.lookup, hk] at h
        subst hn
        cases h
        simp [Prod.ext_iff]
      · simp only [List.lookup, hk] at h
        exact List.mem_cons_of_mem _ (ih h)

/-- A relative path produced by one of the two template renderers. -/
def IsRendered (cfg : Config) (rel : String) : Prop :=
  (∃ proj seq code, rel = renderShotsTemplate cfg.pathTemplates.shotsTemplate proj seq code) ∨
  ∃ proj, rel = renderAssetsTemplate cfg.pathTemplates.assetsTemplate proj

/-- The per-OS path shape of every agent entry the builder writes: `osx`
equals `linux` verbatim, `win` is `linux` with every `/` replaced by `\`,
and `linux` is `base_path + "/" + rendered` for a template-rendered relative
path. -/
def GoodRef (cfg : Config) (a : AgentRef) : Prop :=
  a.path.osx = a.path.linux ∧
  a.path.win = winPath a.path.linux ∧
  ∃ base rel, a.path.linux = base ++ "/" ++ rel ∧ IsRendered cfg rel

theorem goodRef_mkOsPath (cfg : Config) (idv perm : String) (role : Role)
    (base rel : String) (hr : IsRendered cfg rel) :
    GoodRef cfg { id := idv, role := role, permission := perm,
                  path := mkOsPath (base ++ "/" ++ rel) } :=
  ⟨rfl, rfl, base, rel, rfl, hr⟩

theorem buildEnduserAgents_good (cfg : Config) (ags : Option (List RemoteAgent))
    (tank seq code : String) :
    ∀ (artists : List String) (refs : List AgentRef),
      buildEnduserAgents cfg ags tank seq code artists = Except.ok refs →
      ∀ a ∈ refs, GoodRef cfg a
  | [], refs, h => by
      simp only [buildEnduserAgents] at h
      cases h
      simp
  | artist :: rest, refs, h => by
      simp only [buildEnduserAgents] at h
      rcases hg : get_target_agent_id cfg ags artist with e | tid <;> rw [hg] at h
      · cases h
      · rcases hb : buildEnduserAgents cfg ags tank seq code rest with e | restRefs <;>
          rw [hb] at h
        · cases h
        · cases h
          intro a ha
          rcases List.mem_cons.mp ha with ha | ha
          · subst ha
            exact goodRef_mkOsPath cfg tid "srw" Role.enduser
              (targetCfgOf cfg artist).basePath _ (Or.inl ⟨tank, seq, code, rfl⟩)
          · exact buildEnduserAgents_good cfg ags tank seq code rest restRefs hb a ha

theorem buildAssetsEnduserAgents_good (cfg : Config) (ags : Option (List RemoteAgent))
    (proj : String) :
    ∀ (artists : List String) (refs : List AgentRef),
      buildAssetsEnduserAgents cfg ags proj artists = Except.ok refs →
      ∀ a ∈ refs, GoodRef cfg a
  | [], refs, h => by
      simp only [buildAssetsEnduserAgents] at h
      cases h
      simp
  | artist :: rest, refs, h => by
      simp only [buildAssetsEnduserAgents] at h
      rcases hg : get_target_agent_id cfg ags artist with e | tid <;> rw [hg] at h
      · cases h
      · rcases hb : buildAssetsEnduserAgents cfg ags proj rest with e | restRefs <;>
          rw [hb] at h
        · cases h
        · cases h
          intro a ha
          rcases List.mem_cons.mp ha with ha | ha
          · subst ha
            exact goodRef_mkOsPath cfg tid "srw" Role.enduser
              (targetCfgOf cfg artist).basePath _ (Or.inr ⟨proj, rfl⟩)
          · exact buildAssetsEnduserAgents_good cfg ags proj rest restRefs hb a ha

/-- Build-phase invariant: every agent entry of every expected job so far has
the per-OS path shape. -/
def BuildGood (cfg : Config) (st : BuildSt) : Prop :=
  (∀ p ∈ st.expectedShotJobs, ∀ a ∈ (Prod.snd p).agents, GoodRef cfg a) ∧
  (∀ p ∈ st.expectedAssetsJobs, ∀ a ∈ (Prod.snd p).agents, GoodRef cfg a)

theorem shotStep_BuildGood (cfg : Config) (ags : Option (List RemoteAgent)) (pid : String)
    (st : BuildSt) (s : Shot) (h : BuildGood cfg st) :
    BuildGood cfg (shotStep cfg ags pid st s) := by
  obtain ⟨h₁, h₂⟩ := h
  by_cases hc : st.processedShots.contains (shotKeyOf s) = true
  · simpa only [shotStep, hc, if_true] using ⟨h₁, h₂⟩
  · by_cases hv : (validArtistsOf cfg s).isEmpty = true
    · simp only [shotStep, hc, Bool.false_eq_true, if_false, hv, if_true]
      exact ⟨h₁, h₂⟩
    · rcases hb : buildEnduserAgents cfg ags s.tankName s.sequence s.code
        (validArtistsOf cfg s) with e | endAgents
      · simp only [shotStep, hc, Bool.false_eq_true, if_false, hv, hb]
        exact ⟨h₁, h₂⟩
      · simp only [shotStep, hc, Bool.false_eq_true, if_false, hv, hb]
        refine ⟨?_, h₂⟩
        intro p hp a ha
        rcases mem_alistInsert_sub _ _ _ p hp with hpe | hpe
        · subst hpe
          rcases List.mem_cons.mp ha with ha | ha
          · subst ha
            exact goodRef_mkOsPath cfg pid "rw" Role.primary_storage
              cfg.primaryStorage.basePath _
              (Or.inl ⟨s.tankName, s.sequence, s.code, rfl⟩)
          · exact buildEnduserAgents_good cfg ags s.tankName s.sequence s.code _ _ hb a ha
        · exact h₁ p hpe a ha

theorem assetsProjStep_BuildGood (cfg : Config) (ags : Option (List RemoteAgent))
    (pid : String) (aps : List (String × List String)) (st : BuildSt) (proj : String)
    (h : BuildGood cfg st) : BuildGood cfg (assetsProjStep cfg ags pid aps st proj) := by
  obtain ⟨h₁, h₂⟩ := h
  by_cases hc : st.processedAssetProjects.contains proj = true
  · simpa only [assetsProjStep, hc, if_true] using ⟨h₁, h₂⟩
  · by_cases hv : (projectArtistsOf cfg aps proj).isEmpty = true
    · simp only [assetsProjStep, hc, Bool.false_eq_true, if_false, hv, if_true]
      exact ⟨h₁, h₂⟩
    · rcases hb : buildAssetsEnduserAgents cfg ags proj (projectArtistsOf cfg aps proj)
        with e | endAgents
      · simp only [assetsProjStep, hc, Bool.false_eq_true, if_false, hv, hb]
        exact ⟨h₁, h₂⟩
      · simp only [assetsProjStep, hc, Bool.false_eq_true, if_false, hv, hb]
        refine ⟨h₁, ?_⟩
        intro p hp a ha
        rcases mem_alistInsert_sub _ _ _ p hp with hpe | hpe
        · subst hpe
          rcases List.mem_cons.mp ha with ha | ha
          · subst ha
            exact goodRef_mkOsPath cfg pid "rw" Role.primary_storage
              cfg.primaryStorage.basePath _ (Or.inr ⟨proj, rfl⟩)
          · exact buildAssetsEnduserAgents_good cfg ags proj _ _ hb a ha
        · exact h₂ p hpe a ha

theorem buildExpected_BuildGood (cfg : Config) (ags : Option (List RemoteAgent))
    (pid : String) (snap : Snapshot) : BuildGood cfg (buildExpected cfg ags pid snap) := by
  unfold buildExpected
  refine foldlPreserves (BuildGood cfg) _ _ _ ?_ ?_
  · intro x _ r hr
    unfold assetsArtistStep
    by_cases hk : (List.lookup x.1 cfg.targetAgents).isSome = true
    · simp only [hk, if_true]
      exact foldlPreserves (BuildGood cfg) _ _ _
        (fun y _ r₂ hr₂ => assetsProjStep_BuildGood cfg ags pid snap.artistProjects r₂ y hr₂) hr
    · simp only [hk, Bool.false_eq_true, if_false]
      exact hr
  · refine foldlPreserves (BuildGood cfg) _ _ _ ?_ ?_
    · intro x _ r hr
      exact shotStep_BuildGood cfg ags pid r x hr
    · exact ⟨by simp [initBuildSt], by simp [initBuildSt]⟩

/-- C8: every AgentRef of every built expected job (primary_storage and
enduser alike) has `linux` and `osx` equal to the rendered absolute path
`base_path ++ "/" ++ rendered` verbatim, and `win` equal to that same string
with every `/` replaced by `\` and no other transformation. -/
theorem C8_path_variants (cfg : Config) (ags : Option (List RemoteAgent)) (pid : String)
    (snap : Snapshot) (n : String) (jc : JobConfig) (a : AgentRef)
    (hexp : List.lookup n (allExpectedOf cfg ags pid snap) = some jc)
    (ha : a ∈ jc.agents) :
    a.path.osx = a.path.linux ∧
    a.path.win = winPath a.path.linux ∧
    ∃ base rel, a.path.linux = base ++ "/" ++ rel ∧ IsRendered cfg rel := by
  have hmem := mem_of_lookup_eq_some hexp
  have hgood := buildExpected_BuildGood cfg ags pid snap
  rcases mem_mergeMaps_sub _ _ _ hmem with h | h
  · exact hgood.1 (n, jc) h a ha
  · exact hgood.2 (n, jc) h a ha

/-- Witness for C8: the enduser entry of the concrete expected shot job has
`osx = linux`, `win` the backslash variant, and `linux` decomposing as
`base ++ "/" ++ rendered`. -/
theorem C8_path_variants_witness :
    (mkOsPath "/home/a/P/SEQ/S1").win = "\\home\\a\\P\\SEQ\\S1" ∧
    ((wJc.agents.get ⟨1, by decide⟩).path.osx = (wJc.agents.get ⟨1, by decide⟩).path.linux ∧
      (wJc.agents.get ⟨1, by decide⟩).path.win =
        winPath (wJc.agents.get ⟨1, by decide⟩).path.linux ∧
      ∃ base rel, (wJc.agents.get ⟨1, by decide⟩).path.linux = base ++ "/" ++ rel ∧
        IsRendered wCfg rel) :=
  ⟨by decide,
   C8_path_variants wCfg (some []) "1" wSnap "HybridWork_P_S1" wJc _ (by decide)
     (by decide)⟩

/-! ### Claim C5 -/

theorem string_append_left_cancel {p a b : String} (h : p ++ a = p ++ b) : a = b := by
  have h₂ : (p ++ a).data = (p ++ b).data := congrArg String.data h
  rw [String.data_append, String.data_append] at h₂
  exact String.ext (List.append_cancel_left h₂)

theorem shotJobNameOf_eq (s : Shot) : shotJobNameOf s = "HybridWork_" ++ shotKeyOf s := by
  simp [shotJobNameOf, shotKeyOf, String.append_assoc]

theorem lookup_mergeMaps_none {n : String} :
    ∀ (m₂ m₁ : List (String × JobConfig)), List.lookup n m₁ = none →
      List.lookup n m₂ = none → List.lookup n (mergeMaps m₁ m₂) = none
  | [], m₁, h₁, _ => h₁
  | kv :: rest, m₁, h₁, h₂ => by
      have hne : (n == kv.1) = false := by
        by_contra hc
        simp only [Bool.not_eq_false, beq_iff_eq] at hc
        simp [List.lookup, show (n == kv.1) = true from by simp [hc]] at h₂
      have h₂r : List.lookup n rest = none := by
        simpa [List.lookup, hne] using h₂
      have : List.lookup n (alistInsert m₁ kv.1 kv.2) = none := by
        rw [lookup_alistInsert_ne m₁ kv.1 n kv.2 (by simpa using hne)]
        exact h₁
      exact lookup_mergeMaps_none rest (alistInsert m₁ kv.1 kv.2) this h₂r

/-- A shot step never makes the name `HybridWork_ ++ K` appear in the
expected shot-job map when every snapshot entry with concatenated key `K` has
no config-known artists. -/
theorem shotStep_lookup_none (cfg : Config) (ags : Option (List RemoteAgent)) (pid : String)
    (K : String) (st : BuildSt) (t : Shot)
    (hkey : shotKeyOf t = K → validArtistsOf cfg t = [])
    (h : List.lookup ("HybridWork_" ++ K) st.expectedShotJobs = none) :
    List.lookup ("HybridWork_" ++ K) (shotStep cfg ags pid st t).expectedShotJobs = none := by
  by_cases hc : st.processedShots.contains (shotKeyOf t) = true
  · simpa only [shotStep, hc, if_true] using h
  · by_cases hv : (validArtistsOf cfg t).isEmpty = true
    · simpa only [shotStep, hc, Bool.false_eq_true, if_false, hv, if_true] using h
    · have hne : shotKeyOf t ≠ K := by
        intro hk
        rw [hkey hk] at hv
        simp at hv
      rcases hb : buildEnduserAgents cfg ags t.tankName t.sequence t.code
        (validArtistsOf cfg t) with e | endAgents
      · simpa only [shotStep, hc, Bool.false_eq_true, if_false, hv, hb] using h
      · simp only [shotStep, hc, Bool.false_eq_true, if_false, hv, hb]
        rw [show shotJobNameOf t = "HybridWork_" ++ shotKeyOf t from shotJobNameOf_eq t] at *
        rw [lookup_alistInsert_ne]
        · exact h
        · intro hcontra
          exact hne (string_append_left_cancel hcontra).symm

theorem assetsProjStep_shotJobs (cfg : Config) (ags : Option (List RemoteAgent))
    (pid : String) (aps : List (String × List String)) (st : BuildSt) (proj : String) :
    (assetsProjStep cfg ags pid aps st proj).expectedShotJobs = st.expectedShotJobs := by
  by_cases hc : st.processedAssetProjects.contains proj = true
  · simp only [assetsProjStep, hc, if_true]
  · by_cases hv : (projectArtistsOf cfg aps proj).isEmpty = true
    · simp only [assetsProjStep, hc, Bool.false_eq_true, if_false, hv, if_true]
    · rcases hb : buildAssetsEnduserAgents cfg ags proj (projectArtistsOf cfg aps proj)
        with e | ea <;>
        simp only [assetsProjStep, hc, Bool.false_eq_true, if_false, hv, hb]

/-- If every snapshot entry with a given shot's concatenated key has no
config-known artists, the expected shot-job map has no entry under that
shot's deterministic name. -/
theorem buildExpected_shot_lookup_none (cfg : Config) (ags : Option (List RemoteAgent))
    (pid : String) (snap : Snapshot) (s : Shot)
    (h₃ : ∀ t ∈ snap.shots, shotKeyOf t = shotKeyOf s → validArtistsOf cfg t = []) :
    List.lookup (shotJobNameOf s) (buildExpected cfg ags pid snap).expectedShotJobs =
      none := by
  rw [shotJobNameOf_eq]
  unfold buildExpected
  have hassets : ∀ (l : List (String × List String)) (st : BuildSt),
      (l.foldl (assetsArtistStep cfg ags pid snap.artistProjects) st).expectedShotJobs =
        st.expectedShotJobs := by
    intro l st
    refine foldlField BuildSt.expectedShotJobs _ ?_ l st
    intro r p
    unfold assetsArtistStep
    by_cases hk : (List.lookup p.1 cfg.targetAgents).isSome = true
    · simp only [hk, if_true]
      exact foldlField BuildSt.expectedShotJobs _
        (fun r₂ proj => assetsProjStep_shotJobs cfg ags pid snap.artistProjects r₂ proj) p.2 r
    · simp only [hk, Bool.false_eq_true, if_false]
  rw [hassets]
  refine foldlPreserves
    (fun st : BuildSt =>
      List.lookup ("HybridWork_" ++ shotKeyOf s) st.expectedShotJobs = none) _ _ _ ?_ ?_
  · intro t ht st hst
    exact shotStep_lookup_none cfg ags pid (shotKeyOf s) st t (h₃ t ht) hst
  · simp [initBuildSt]

/-- C5 (amended): a shot all of whose assigned artists are absent from
`target_agents` contributes no expected job; *provided* no other snapshot
entry with the same concatenated key has config-known artists and no assets
job takes the same deterministic name, a same-named job in the remote
inventory is placed in the to-delete set and a delete call is issued for
it. -/
theorem C5_unstaffed_shot_deletion (cfg : Config) (o : Oracle) (snap : Snapshot)
    (pid : String) (s : Shot)
    (h₁ : s ∈ snap.shots)
    (h₂ : validArtistsOf cfg s = [])
    (h₃ : ∀ t ∈ snap.shots, shotKeyOf t = shotKeyOf s → validArtistsOf cfg t = [])
    (h₄ : List.lookup (shotJobNameOf s)
        (buildExpected cfg o.agents pid snap).expectedAssetsJobs = none)
    (hp : get_primary_storage_agent_id cfg o.agents = Except.ok pid)
    (hex : (List.lookup (shotJobNameOf s) (jobMapOf (existingOf o.jobs))).isSome = true) :
    List.lookup (shotJobNameOf s) (allExpectedOf cfg o.agents pid snap) = none ∧
    shotJobNameOf s ∈ toDeleteOf (jobMapOf (existingOf o.jobs))
      (allExpectedOf cfg o.agents pid snap) ∧
    shotJobNameOf s ∈ (sync cfg o snap).deleteCalls := by
  have hnone : List.lookup (shotJobNameOf s) (allExpectedOf cfg o.agents pid snap) = none := by
    unfold allExpectedOf
    exact lookup_mergeMaps_none _ _
      (buildExpected_shot_lookup_none cfg o.agents pid snap s h₃) h₄
  have hmem : shotJobNameOf s ∈ toDeleteOf (jobMapOf (existingOf o.jobs))
      (allExpectedOf cfg o.agents pid snap) := by
    unfold toDeleteOf
    refine List.mem_filter.mpr ⟨mem_keys_of_lookup_isSome hex, ?_⟩
    simp only [hnone, Option.isNone_none]
  refine ⟨hnone, hmem, ?_⟩
  have hsub : ∀ m ∈ toDeleteOf (jobMapOf (existingOf o.jobs))
      (mergeMaps (buildExpected cfg o.agents pid snap).expectedShotJobs
        (buildExpected cfg o.agents pid snap).expectedAssetsJobs),
      (List.lookup m (jobMapOf (existingOf o.jobs))).isSome = true := by
    intro m hm
    exact lookup_isSome_of_mem_keys (List.mem_filter.mp hm).1
  have hcalls : (sync cfg o snap).deleteCalls =
      toDeleteOf (jobMapOf (existingOf o.jobs))
        (mergeMaps (buildExpected cfg o.agents pid snap).expectedShotJobs
          (buildExpected cfg o.agents pid snap).expectedAssetsJobs) := by
    unfold sync syncCore
    rw [hp]
    simp only
    rw [foldlField SyncResult.deleteCalls
        (updateStep o.updOk (jobMapOf (existingOf o.jobs))
          (mergeMaps (buildExpected cfg o.agents pid snap).expectedShotJobs
            (buildExpected cfg o.agents pid snap).expectedAssetsJobs))
        (fun r m => (updateStep_frame _ _ _ r m).2.1),
      foldlField SyncResult.deleteCalls
        (createStep o.createRes
          (mergeMaps (buildExpected cfg o.agents pid snap).expectedShotJobs
            (buildExpected cfg o.agents pid snap).expectedAssetsJobs))
        (fun r m => (createStep_frame _ _ r m).1),
      deleteCalls_foldl o.deleteRes _ _ _ hsub]
    simp [initResult]
  rw [hcalls]
  simpa only [allExpectedOf] using hmem

/-- A snapshot with one shot whose only assigned artist is unknown to the
configuration. -/
def c5wSnap : Snapshot :=
  { shots := [{ code := "S2", tankName := "P", sequence := "Q", assignedArtists := ["X"] }],
    artistProjects := [] }

/-- An inventory holding the deterministic job for that shot. -/
def c5wOracle : Oracle :=
  { agents := some [],
    jobs := some [{ id := 4, name := "HybridWork_P_S2", agents := [] }],
    createRes := fun _ => Except.ok 7, deleteRes := fun _ => Except.ok (),
    updOk := fun _ => true }

/-- Witness for C5: the unstaffed shot yields no expected job and the
same-named inventory job receives a delete call. -/
theorem C5_unstaffed_shot_deletion_witness :
    validArtistsOf wCfg
      { code := "S2", tankName := "P", sequence := "Q", assignedArtists := ["X"] } = [] ∧
    "HybridWork_P_S2" ∈ (sync wCfg c5wOracle c5wSnap).deleteCalls :=
  ⟨by decide,
   (C5_unstaffed_shot_deletion wCfg c5wOracle c5wSnap "1"
      { code := "S2", tankName := "P", sequence := "Q", assignedArtists := ["X"] }
      (by decide) (by decide) (by decide) (by decide) (by rfl) (by decide)).2.2⟩

/-- A snapshot whose single shot is named `Assets`, plus one configured artist
on the same project, so the project's assets job takes exactly the shot's
deterministic name. -/
def c5Snap : Snapshot :=
  { shots := [{ code := "Assets", tankName := "P", sequence := "Q",
                assignedArtists := ["X"] }],
    artistProjects := [("A", ["P"])] }

/-- An inventory holding a job under that contested name, with the assets
job's enduser set so no update fires either. -/
def c5Oracle : Oracle :=
  { agents := some [],
    jobs := some [{ id := 3, name := "HybridWork_P_Assets",
                    agents := [{ id := "42", role := Role.enduser, permission := "srw",
                                 path := mkOsPath "/x" }] }],
    createRes := fun _ => Except.ok 7, deleteRes := fun _ => Except.ok (),
    updOk := fun _ => true }

/-- C5 counterexample: the shot named `Assets` has no config-known artists
and a job with its deterministic name `HybridWork_P_Assets` exists in the
inventory, yet no delete call is issued for it — the assets job of project
`P` claims the same name, so the name is expected and never enters the
to-delete set.  This refutes the claim as stated. -/
theorem C5_counterexample :
    validArtistsOf wCfg
      { code := "Assets", tankName := "P", sequence := "Q", assignedArtists := ["X"] } = [] ∧
    shotJobNameOf
      { code := "Assets", tankName := "P", sequence := "Q", assignedArtists := ["X"] } =
      "HybridWork_P_Assets" ∧
    (∃ j ∈ existingOf c5Oracle.jobs, j.name = "HybridWork_P_Assets") ∧
    (sync wCfg c5Oracle c5Snap).deleteCalls = [] := by
  refine ⟨by decide, by decide, ⟨⟨3, "HybridWork_P_Assets",
    [{ id := "42", role := Role.enduser, permission := "srw",
       path := mkOsPath "/x" }]⟩, by decide⟩, by decide⟩

/-! ### Claims C10 and C6 -/

/-- A shot step either leaves the `processed_shots` set unchanged (the entry
was a repeat) or appends exactly the entry's concatenated key. -/
theorem shotStep_processed (cfg : Config) (ags : Option (List RemoteAgent)) (pid : String)
    (st : BuildSt) (t : Shot) :
    (shotStep cfg ags pid st t).processedShots = st.processedShots ∨
    (shotStep cfg ags pid st t).processedShots = st.processedShots ++ [shotKeyOf t] := by
  by_cases hc : shotKeyOf t ∈ st.processedShots
  · simp [shotStep, hc]
  · by_cases hv : validArtistsOf cfg t = []
    · simp [shotStep, hc, hv]
    · rcases hb : buildEnduserAgents cfg ags t.tankName t.sequence t.code
        (validArtistsOf cfg t) with e | ea <;>
        simp [shotStep, hc, hv, hb]

/-- After a shot step, the entry's key is in the processed set. -/
theorem shotStep_key_processed (cfg : Config) (ags : Option (List RemoteAgent))
    (pid : String) (st : BuildSt) (t : Shot) :
    shotKeyOf t ∈ (shotStep cfg ags pid st t).processedShots := by
  by_cases hc : st.processedShots.contains (shotKeyOf t) = true
  · simp only [shotStep, hc, if_true]
    simpa using hc
  · by_cases hv : (validArtistsOf cfg t).isEmpty = true
    · simp only [shotStep, hc, Bool.false_eq_true, if_false, hv, if_true]
      simp
    · rcases hb : buildEnduserAgents cfg ags t.tankName t.sequence t.code
        (validArtistsOf cfg t) with e | ea <;>
        simp only [shotStep, hc, Bool.false_eq_true, if_false, hv, hb] <;>
        simp

/-- Processed keys are never dropped by a shot step. -/
theorem shotStep_processed_mono (cfg : Config) (ags : Option (List RemoteAgent))
    (pid : String) (st : BuildSt) (t : Shot) (x : String)
    (h : x ∈ st.processedShots) : x ∈ (shotStep cfg ags pid st t).processedShots := by
  rcases shotStep_processed cfg ags pid st t with hp | hp <;> rw [hp]
  · exact h
  · exact List.mem_append_left _ h

/-- An entry whose key was already processed is ignored entirely. -/
theorem shotStep_of_processed (cfg : Config) (ags : Option (List RemoteAgent))
    (pid : String) (st : BuildSt) (t : Shot)
    (h : shotKeyOf t ∈ st.processedShots) : shotStep cfg ags pid st t = st := by
  have hc : st.processedShots.contains (shotKeyOf t) = true := List.elem_eq_true_of_mem h
  simp only [shotStep, hc, if_true]

/-- Folding the shot loop over a list containing a later entry with an
already-seen concatenated key gives the same accumulator as without it. -/
theorem shotFold_dedup (cfg : Config) (ags : Option (List RemoteAgent)) (pid : String)
    (l₁ l₂ l₃ : List Shot) (a b : Shot) (hkey : shotKeyOf b = shotKeyOf a) :
    (l₁ ++ a :: (l₂ ++ b :: l₃)).foldl (shotStep cfg ags pid) initBuildSt =
    (l₁ ++ a :: (l₂ ++ l₃)).foldl (shotStep cfg ags pid) initBuildSt := by
  rw [List.foldl_append, List.foldl_append, List.foldl_cons, List.foldl_cons,
    List.foldl_append, List.foldl_append, List.foldl_cons]
  have hmem : shotKeyOf b ∈
      BuildSt.processedShots
        (l₂.foldl (shotStep cfg ags pid)
          (shotStep cfg ags pid (l₁.foldl (shotStep cfg ags pid) initBuildSt) a)) := by
    rw [hkey]
    refine foldlPreserves
      (fun st : BuildSt => shotKeyOf a ∈ st.processedShots) _ _ _ ?_ ?_
    · intro x _ r hr
      exact shotStep_processed_mono cfg ags pid r x _ hr
    · exact shotStep_key_processed cfg ags pid _ a
  rw [shotStep_of_processed cfg ags pid _ b hmem]

/-- C10: when the snapshot lists two shot entries that deduplicate to the same
shot key, the whole run is built solely from the first such entry — the later
duplicate's `sequence` and `assigned_artists` (indeed, the whole entry) are
ignored entirely: removing the duplicate leaves the entire sync result
unchanged. -/
theorem C10_later_duplicate_ignored (cfg : Config) (o : Oracle)
    (l₁ l₂ l₃ : List Shot) (a b : Shot) (ap : List (String × List String))
    (hkey : shotKeyOf b = shotKeyOf a) :
    sync cfg o { shots := l₁ ++ a :: (l₂ ++ b :: l₃), artistProjects := ap } =
    sync cfg o { shots := l₁ ++ a :: (l₂ ++ l₃), artistProjects := ap } := by
  unfold sync syncCore
  cases hp : get_primary_storage_agent_id cfg o.agents with
  | error e => rfl
  | ok pid =>
      have hb : buildExpected cfg o.agents pid
          { shots := l₁ ++ a :: (l₂ ++ b :: l₃), artistProjects := ap } =
          buildExpected cfg o.agents pid
          { shots := l₁ ++ a :: (l₂ ++ l₃), artistProjects := ap } := by
        unfold buildExpected
        rw [shotFold_dedup cfg o.agents pid l₁ l₂ l₃ a b hkey]
      simp only [hb]

/-- A second snapshot entry for `(P, S1)` with a different sequence and a
different artist list. -/
def c10Dup : Shot :=
  { code := "S1", tankName := "P", sequence := "OTHER", assignedArtists := ["B", "A"] }

/-- Witness for C10: adding the duplicate entry changes nothing about the
run. -/
theorem C10_later_duplicate_ignored_witness :
    shotKeyOf c10Dup =
      shotKeyOf { code := "S1", tankName := "P", sequence := "SEQ",
                  assignedArtists := ["A"] } ∧
    sync wCfg c9Oracle
      { shots := [{ code := "S1", tankName := "P", sequence := "SEQ",
                    assignedArtists := ["A"] }, c10Dup],
        artistProjects := [("A", ["P"])] } =
    sync wCfg c9Oracle wSnap :=
  ⟨by decide,
   C10_later_duplicate_ignored wCfg c9Oracle [] [] []
     { code := "S1", tankName := "P", sequence := "SEQ", assignedArtists := ["A"] }
     c10Dup [("A", ["P"])] (by decide)⟩

/-- C6 (amended): two shot entries are treated as repeated entries for the
same shot iff their *concatenated* keys `tank_name ++ "_" ++ code` are equal
— not iff their `(tank_name, code)` pairs are equal.  An entry whose key was
already processed is ignored entirely; an entry with a fresh key is
processed: its key is recorded and, when it has config-known artists whose
enduser agents resolve, it contributes its own expected job under its
deterministic name. -/
theorem C6_dedup_by_concatenated_key (cfg : Config) (ags : Option (List RemoteAgent))
    (pid : String) (st : BuildSt) (b : Shot) :
    (shotKeyOf b ∈ st.processedShots → shotStep cfg ags pid st b = st) ∧
    (shotKeyOf b ∉ st.processedShots →
      (shotStep cfg ags pid st b).processedShots = st.processedShots ++ [shotKeyOf b] ∧
      ∀ refs, validArtistsOf cfg b ≠ [] →
        buildEnduserAgents cfg ags b.tankName b.sequence b.code (validArtistsOf cfg b) =
          Except.ok refs →
        List.lookup (shotJobNameOf b) (shotStep cfg ags pid st b).expectedShotJobs =
          some { name := shotJobNameOf b, jtype := JobType.shot,
                 artists := validArtistsOf cfg b, project := b.tankName,
                 shot := some b.code,
                 primaryPath := build_primary_storage_path cfg b.tankName b.sequence b.code,
                 agents := { id := pid, role := Role.primary_storage, permission := "rw",
                             path := mkOsPath (build_primary_storage_path cfg b.tankName
                               b.sequence b.code) } :: refs,
                 description := "Shot " ++ b.code ++ " for: " ++
                   joinComma (validArtistsOf cfg b) }) := by
  refine ⟨fun hmem => shotStep_of_processed cfg ags pid st b hmem, fun hfresh => ⟨?_, ?_⟩⟩
  · by_cases hv : validArtistsOf cfg b = []
    · simp [shotStep, hfresh, hv]
    · rcases hb : buildEnduserAgents cfg ags b.tankName b.sequence b.code
        (validArtistsOf cfg b) with e | ea <;>
        simp [shotStep, hfresh, hv, hb]
  · intro refs hne hb
    simp [shotStep, hfresh, hne, hb, lookup_alistInsert_self]

/-- Two snapshot entries with distinct `(tank_name, code)` pairs whose
concatenated keys collide: `("A_B", "C")` and `("A", "B_C")`. -/
def c6Snap : Snapshot :=
  { shots := [{ code := "C", tankName := "A_B", sequence := "s1", assignedArtists := ["A"] },
              { code := "B_C", tankName := "A", sequence := "s2", assignedArtists := ["A"] }],
    artistProjects := [] }

/-- C6 counterexample: the two entries have distinct `(tank_name, code)`
pairs, yet the later one is deduplicated away — only one expected job is
built and it carries the first entry's sequence in its primary path.  This
refutes the claimed "if and only if their `(project.tank_name, code)` pairs
are equal". -/
theorem C6_counterexample :
    ((("A_B" : String), ("C" : String)) ≠ (("A" : String), ("B_C" : String))) ∧
    shotKeyOf { code := "C", tankName := "A_B", sequence := "s1",
                assignedArtists := ["A"] } =
      shotKeyOf { code := "B_C", tankName := "A", sequence := "s2",
                  assignedArtists := ["A"] } ∧
    (allExpectedOf wCfg (some []) "1" c6Snap).map Prod.fst = ["HybridWork_A_B_C"] ∧
    (List.lookup "HybridWork_A_B_C" (allExpectedOf wCfg (some []) "1" c6Snap)).map
        JobConfig.primaryPath = some "/mnt/p/A_B/s1/C" := by
  refine ⟨by decide, by decide, by decide, by decide⟩

/-- Witness for C6: an entry whose key `P_S1` was already processed is ignored
entirely, and the same entry over a fresh state contributes its expected
job. -/
theorem C6_dedup_by_concatenated_key_witness :
    shotStep wCfg (some []) "1" { initBuildSt with processedShots := ["P_S1"] }
      { code := "S1", tankName := "P", sequence := "SEQ", assignedArtists := ["A"] } =
      { initBuildSt with processedShots := ["P_S1"] } ∧
    List.lookup "HybridWork_P_S1"
      (shotStep wCfg (some []) "1" initBuildSt
        { code := "S1", tankName := "P", sequence := "SEQ",
          assignedArtists := ["A"] }).expectedShotJobs = some wJc :=
  ⟨(C6_dedup_by_concatenated_key wCfg (some []) "1"
      { initBuildSt with processedShots := ["P_S1"] }
      { code := "S1", tankName := "P", sequence := "SEQ",
        assignedArtists := ["A"] }).1 (by decide),
   ((C6_dedup_by_concatenated_key wCfg (some []) "1" initBuildSt
      { code := "S1", tankName := "P", sequence := "SEQ",
        assignedArtists := ["A"] }).2 (by decide)).2
     [{ id := "42", role := Role.enduser, permission := "srw",
        path := mkOsPath "/home/a/P/SEQ/S1" }] (by decide) (by rfl)⟩

/-! ### Claim C3 -/

/-- Error accounting invariant: the errors list grows by exactly one message
per failed delete and per failed create — and by nothing else during the
apply phase (in particular not for failed updates). -/
def ErrAcct (bErr : Nat) (r : SyncResult) : Prop :=
  r.errors.length = bErr + r.failedDeletes + r.failedCreates

theorem deleteStep_ErrAcct (bErr : Nat) (dr : Nat → Except String Unit)
    (em : List (String × RemoteJob)) (r : SyncResult) (n : String)
    (h : ErrAcct bErr r) : ErrAcct bErr (deleteStep dr em r n) := by
  unfold ErrAcct at *
  rcases hl : List.lookup n em with _ | job
  · simpa only [deleteStep, hl] using h
  · rcases hd : dr job.id with e | u
    · simp only [deleteStep, hl, hd, List.length_append, List.length_singleton]
      omega
    · simpa only [deleteStep, hl, hd] using h

theorem createStep_ErrAcct (bErr : Nat) (cr : String → Except String Nat)
    (expected : List (String × JobConfig)) (r : SyncResult) (n : String)
    (h : ErrAcct bErr r) : ErrAcct bErr (createStep cr expected r n) := by
  unfold ErrAcct at *
  rcases hl : List.lookup n expected with _ | jc
  · simpa only [createStep, hl] using h
  · rcases hc : cr n with e | jid
    · simp only [createStep, hl, hc, List.length_append, List.length_singleton]
      omega
    · simpa only [createStep, hl, hc] using h

theorem updateStep_ErrAcct (bErr : Nat) (u : Nat → Bool) (em : List (String × RemoteJob))
    (expected : List (String × JobConfig)) (r : SyncResult) (n : String)
    (h : ErrAcct bErr r) : ErrAcct bErr (updateStep u em expected r n) := by
  unfold ErrAcct at *
  have hf := updateStep_frame u em expected r n
  rw [hf.2.2.2.2.2.2.2.2.1, hf.2.2.2.2.2.2.1, hf.2.2.2.2.2.2.2.1]
  exact h

/-- C3 (amended): each failed delete and each failed create appends exactly
one human-readable message to `errors`, a failed update appends *no* message
(`update_job_agents` swallows the `ApiError` and only logs it), and
processing always continues — every name in the to-delete set receives its
delete call and every name in the to-create set its create call, failures
notwithstanding, and the run returns a result. -/
theorem C3_error_accounting (cfg : Config) (o : Oracle) (snap : Snapshot) (pid : String)
    (hp : get_primary_storage_agent_id cfg o.agents = Except.ok pid) :
    (sync cfg o snap).errors.length =
      (buildExpected cfg o.agents pid snap).errors.length +
      (sync cfg o snap).failedDeletes + (sync cfg o snap).failedCreates ∧
    (sync cfg o snap).deleteCalls =
      toDeleteOf (jobMapOf (existingOf o.jobs)) (allExpectedOf cfg o.agents pid snap) ∧
    (sync cfg o snap).createCalls =
      toCreateOf (jobMapOf (existingOf o.jobs)) (allExpectedOf cfg o.agents pid snap) := by
  have hsub : ∀ m ∈ toDeleteOf (jobMapOf (existingOf o.jobs))
      (mergeMaps (buildExpected cfg o.agents pid snap).expectedShotJobs
        (buildExpected cfg o.agents pid snap).expectedAssetsJobs),
      (List.lookup m (jobMapOf (existingOf o.jobs))).isSome = true :=
    fun m hm => lookup_isSome_of_mem_keys (List.mem_filter.mp hm).1
  have hsubc : ∀ m ∈ toCreateOf (jobMapOf (existingOf o.jobs))
      (mergeMaps (buildExpected cfg o.agents pid snap).expectedShotJobs
        (buildExpected cfg o.agents pid snap).expectedAssetsJobs),
      (List.lookup m (mergeMaps (buildExpected cfg o.agents pid snap).expectedShotJobs
        (buildExpected cfg o.agents pid snap).expectedAssetsJobs)).isSome = true :=
    fun m hm => lookup_isSome_of_mem_keys (List.mem_filter.mp hm).1
  refine ⟨?_, ?_, ?_⟩
  · have hacc : ErrAcct (buildExpected cfg o.agents pid snap).errors.length
        (sync cfg o snap) := by
      unfold sync syncCore
      rw [hp]
      simp only
      refine foldlPreserves (ErrAcct (buildExpected cfg o.agents pid snap).errors.length)
        _ _ _ (fun x _ r hr => updateStep_ErrAcct _ _ _ _ r x hr) ?_
      refine foldlPreserves (ErrAcct (buildExpected cfg o.agents pid snap).errors.length)
        _ _ _ (fun x _ r hr => createStep_ErrAcct _ _ _ r x hr) ?_
      refine foldlPreserves (ErrAcct (buildExpected cfg o.agents pid snap).errors.length)
        _ _ _ (fun x _ r hr => deleteStep_ErrAcct _ _ _ r x hr) ?_
      unfold ErrAcct initResult
      simp
    exact hacc
  · unfold sync syncCore
    rw [hp]
    simp only
    rw [foldlField SyncResult.deleteCalls
        (updateStep o.updOk (jobMapOf (existingOf o.jobs))
          (mergeMaps (buildExpected cfg o.agents pid snap).expectedShotJobs
            (buildExpected cfg o.agents pid snap).expectedAssetsJobs))
        (fun r m => (updateStep_frame _ _ _ r m).2.1),
      foldlField SyncResult.deleteCalls
        (createStep o.createRes
          (mergeMaps (buildExpected cfg o.agents pid snap).expectedShotJobs
            (buildExpected cfg o.agents pid snap).expectedAssetsJobs))
        (fun r m => (createStep_frame _ _ r m).1),
      deleteCalls_foldl o.deleteRes _ _ _ hsub]
    simp only [initResult, List.nil_append]
    rfl
  · unfold sync syncCore
    rw [hp]
    simp only
    rw [foldlField SyncResult.createCalls
        (updateStep o.updOk (jobMapOf (existingOf o.jobs))
          (mergeMaps (buildExpected cfg o.agents pid snap).expectedShotJobs
            (buildExpected cfg o.agents pid snap).expectedAssetsJobs))
        (fun r m => (updateStep_frame _ _ _ r m).1),
      createCalls_foldl o.createRes _ _ _ hsubc,
      foldlField SyncResult.createCalls
        (deleteStep o.deleteRes (jobMapOf (existingOf o.jobs)))
        (fun r m => (deleteStep_frame _ _ r m).1)]
    simp only [initResult, List.nil_append]
    rfl

/-- An oracle whose inventory holds the expected shot job with an outdated
enduser set, and whose update calls fail. -/
def c3Oracle : Oracle :=
  { agents := some [],
    jobs := some [{ id := 5, name := "HybridWork_P_S1", agents := [] }],
    createRes := fun _ => Except.ok 7, deleteRes := fun _ => Except.ok (),
    updOk := fun _ => false }

/-- C3 counterexample: the update of `HybridWork_P_S1` is issued and fails
(`update_job_agents` returns false), yet the run's `errors` list stays empty
— no human-readable message is appended for the failed update, refuting the
claim as stated. -/
theorem C3_counterexample :
    (sync wCfg c3Oracle wSnap).updateCalls = ["HybridWork_P_S1"] ∧
    (sync wCfg c3Oracle wSnap).shot_jobs_updated = 0 ∧
    (sync wCfg c3Oracle wSnap).failedUpdates = 1 ∧
    (sync wCfg c3Oracle wSnap).errors = [] := by
  refine ⟨by decide, by decide, by decide, by decide⟩

/-- An oracle where every delete and create fails. -/
def c3wOracle : Oracle :=
  { agents := some [],
    jobs := some [{ id := 8, name := "HybridWork_Q_Z", agents := [] }],
    createRes := fun _ => Except.error "cboom", deleteRes := fun _ => Except.error "dboom",
    updOk := fun _ => false }

/-- Witness for C3: one failed delete and two failed creates yield exactly
three error messages, while all three names still received their calls. -/
theorem C3_error_accounting_witness :
    (sync wCfg c3wOracle wSnap).errors.length =
      (buildExpected wCfg c3wOracle.agents "1" wSnap).errors.length +
      (sync wCfg c3wOracle wSnap).failedDeletes +
      (sync wCfg c3wOracle wSnap).failedCreates ∧
    (sync wCfg c3wOracle wSnap).failedDeletes = 1 ∧
    (sync wCfg c3wOracle wSnap).failedCreates = 2 ∧
    (sync wCfg c3wOracle wSnap).errors.length = 3 :=
  ⟨(C3_error_accounting wCfg c3wOracle wSnap "1" (by rfl)).1,
   by decide, by decide, by decide⟩

/-! ### Claim C1 — idempotence of a fully successful run

The development below characterises the remote inventory a fully successful
run leaves behind and shows that a second run over it issues no call at all.
-/

theorem pyStartswith_append (p t : String) : pyStartswith (p ++ t) p = true := by
  simp [pyStartswith, String.data_append, List.isPrefixOf_iff_prefix]

theorem assetsJobNameOf_eq (proj : String) :
    assetsJobNameOf proj = "HybridWork_" ++ (proj ++ "_Assets") := by
  simp [assetsJobNameOf, String.append_assoc]

/-- A job's own agents array always compares equal to itself. -/
theorem compare_self (i : Nat) (n : String) (ag : List AgentRef) :
    compare_job_agents { id := i, name := n, agents := ag } ag = true := by
  unfold compare_job_agents
  simp only [Bool.and_eq_true, List.all_eq_true]
  exact ⟨fun x hx => List.elem_eq_true_of_mem hx, fun x hx => List.elem_eq_true_of_mem hx⟩

/-- Every key of both expected-job maps carries the `HybridWork_` prefix. -/
def KeysPref (st : BuildSt) : Prop :=
  (∀ n ∈ st.expectedShotJobs.map Prod.fst, pyStartswith n "HybridWork_" = true) ∧
  (∀ n ∈ st.expectedAssetsJobs.map Prod.fst, pyStartswith n "HybridWork_" = true)

theorem shotStep_KeysPref (cfg : Config) (ags : Option (List RemoteAgent)) (pid : String)
    (st : BuildSt) (t : Shot) (h : KeysPref st) : KeysPref (shotStep cfg ags pid st t) := by
  obtain ⟨h₁, h₂⟩ := h
  by_cases hc : st.processedShots.contains (shotKeyOf t) = true
  · simpa only [shotStep, hc, if_true] using ⟨h₁, h₂⟩
  · by_cases hv : (validArtistsOf cfg t).isEmpty = true
    · simp only [shotStep, hc, Bool.false_eq_true, if_false, hv, if_true]
      exact ⟨h₁, h₂⟩
    · rcases hb : buildEnduserAgents cfg ags t.tankName t.sequence t.code
        (validArtistsOf cfg t) with e | ea
      · simp only [shotStep, hc, Bool.false_eq_true, if_false, hv, hb]
        exact ⟨h₁, h₂⟩
      · simp only [shotStep, hc, Bool.false_eq_true, if_false, hv, hb]
        refine ⟨?_, h₂⟩
        intro n hn
        rcases (mem_keys_alistInsert _ _ _ _).mp hn with hn | hn
        · subst hn
          rw [shotJobNameOf_eq]
          exact pyStartswith_append _ _
        · exact h₁ n hn

theorem assetsProjStep_KeysPref (cfg : Config) (ags : Option (List RemoteAgent))
    (pid : String) (aps : List (String × List String)) (st : BuildSt) (proj : String)
    (h : KeysPref st) : KeysPref (assetsProjStep cfg ags pid aps st proj) := by
  obtain ⟨h₁, h₂⟩ := h
  by_cases hc : st.processedAssetProjects.contains proj = true
  · simpa only [assetsProjStep, hc, if_true] using ⟨h₁, h₂⟩
  · by_cases hv : (projectArtistsOf cfg aps proj).isEmpty = true
    · simp only [assetsProjStep, hc, Bool.false_eq_true, if_false, hv, if_true]
      exact ⟨h₁, h₂⟩
    · rcases hb : buildAssetsEnduserAgents cfg ags proj (projectArtistsOf cfg aps proj)
        with e | ea
      · simp only [assetsProjStep, hc, Bool.false_eq_true, if_false, hv, hb]
        exact ⟨h₁, h₂⟩
      · simp only [assetsProjStep, hc, Bool.false_eq_true, if_false, hv, hb]
        refine ⟨h₁, ?_⟩
        intro n hn
        rcases (mem_keys_alistInsert _ _ _ _).mp hn with hn | hn
        · subst hn
          rw [assetsJobNameOf_eq]
          exact pyStartswith_append _ _
        · exact h₂ n hn

theorem buildExpected_KeysPref (cfg : Config) (ags : Option (List RemoteAgent))
    (pid : String) (snap : Snapshot) : KeysPref (buildExpected cfg ags pid snap) := by
  unfold buildExpected
  refine foldlPreserves KeysPref _ _ _ ?_ ?_
  · intro x _ r hr
    unfold assetsArtistStep
    by_cases hk : (List.lookup x.1 cfg.targetAgents).isSome = true
    · simp only [hk, if_true]
      exact foldlPreserves KeysPref _ _ _
        (fun y _ r₂ hr₂ => assetsProjStep_KeysPref cfg ags pid snap.artistProjects r₂ y hr₂) hr
    · simp only [hk, Bool.false_eq_true, if_false]
      exact hr
  · exact foldlPreserves KeysPref _ _ _
      (fun x _ r hr => shotStep_KeysPref cfg ags pid r x hr)
      ⟨by simp [initBuildSt], by simp [initBuildSt]⟩

theorem mem_keys_iff {α : Type} (m : List (String × α)) (n : String) :
    n ∈ m.map Prod.fst ↔ ∃ p ∈ m, p.1 = n := by
  simp [List.mem_map]

/-- Every key of the merged expected map carries the `HybridWork_` prefix. -/
theorem allExpected_keys_pref (cfg : Config) (ags : Option (List RemoteAgent))
    (pid : String) (snap : Snapshot) (n : String)
    (hn : n ∈ (allExpectedOf cfg ags pid snap).map Prod.fst) :
    pyStartswith n "HybridWork_" = true := by
  obtain ⟨p, hp, hpn⟩ := (mem_keys_iff _ n).mp hn
  have hkp := buildExpected_KeysPref cfg ags pid snap
  rcases mem_mergeMaps_sub _ _ _ hp with h | h
  · exact hpn ▸ hkp.1 p.1 ((mem_keys_iff _ _).mpr ⟨p, h, rfl⟩)
  · exact hpn ▸ hkp.2 p.1 ((mem_keys_iff _ _).mpr ⟨p, h, rfl⟩)

/-! Duplicate-free keys of the expected map. -/

theorem alistInsert_keys_nodup {α : Type} (m : List (String × α)) (k : String) (v : α)
    (h : (m.map Prod.fst).Nodup) : ((alistInsert m k v).map Prod.fst).Nodup := by
  induction m with
  | nil => simp [alistInsert]
  | cons kv rest ih =>
      simp only [List.map_cons, List.nodup_cons] at h
      by_cases hk : (kv.1 == k) = true
      · have hkk : kv.1 = k := by simpa using hk
        subst hkk
        simp only [alistInsert, hk, if_true, List.map_cons, List.nodup_cons]
        exact h
      · simp only [alistInsert, hk, Bool.false_eq_true, if_false, List.map_cons,
          List.nodup_cons]
        refine ⟨fun hc => ?_, ih h.2⟩
        rcases (mem_keys_alistInsert _ _ _ _).mp hc with hc | hc
        · exact hk (by simp [hc])
        · exact h.1 hc

theorem mergeMaps_keys_nodup (m₂ : List (String × JobConfig)) :
    ∀ (m₁ : List (String × JobConfig)), (m₁.map Prod.fst).Nodup →
      ((mergeMaps m₁ m₂).map Prod.fst).Nodup := by
  induction m₂ with
  | nil => intro m₁ h; exact h
  | cons kv rest ih =>
      intro m₁ h
      exact ih (alistInsert m₁ kv.1 kv.2) (alistInsert_keys_nodup m₁ kv.1 kv.2 h)

/-- The expected-job dicts have duplicate-free keys (Python dicts). -/
def KeysNodup (st : BuildSt) : Prop :=
  (st.expectedShotJobs.map Prod.fst).Nodup ∧ (st.expectedAssetsJobs.map Prod.fst).Nodup

theorem shotStep_KeysNodup (cfg : Config) (ags : Option (List RemoteAgent)) (pid : String)
    (st : BuildSt) (t : Shot) (h : KeysNodup st) : KeysNodup (shotStep cfg ags pid st t) := by
  obtain ⟨h₁, h₂⟩ := h
  by_cases hc : st.processedShots.contains (shotKeyOf t) = true
  · simpa only [shotStep, hc, if_true] using ⟨h₁, h₂⟩
  · by_cases hv : (validArtistsOf cfg t).isEmpty = true
    · simp only [shotStep, hc, Bool.false_eq_true, if_false, hv, if_true]
      exact ⟨h₁, h₂⟩
    · rcases hb : buildEnduserAgents cfg ags t.tankName t.sequence t.code
        (validArtistsOf cfg t) with e | ea <;>
        simp only [shotStep, hc, Bool.false_eq_true, if_false, hv, hb]
      · exact ⟨h₁, h₂⟩
      · exact ⟨alistInsert_keys_nodup _ _ _ h₁, h₂⟩

theorem assetsProjStep_KeysNodup (cfg : Config) (ags : Option (List RemoteAgent))
    (pid : String) (aps : List (String × List String)) (st : BuildSt) (proj : String)
    (h : KeysNodup st) : KeysNodup (assetsProjStep cfg ags pid aps st proj) := by
  obtain ⟨h₁, h₂⟩ := h
  by_cases hc : st.processedAssetProjects.contains proj = true
  · simpa only [assetsProjStep, hc, if_true] using ⟨h₁, h₂⟩
  · by_cases hv : (projectArtistsOf cfg aps proj).isEmpty = true
    · simp only [assetsProjStep, hc, Bool.false_eq_true, if_false, hv, if_true]
      exact ⟨h₁, h₂⟩
    · rcases hb : buildAssetsEnduserAgents cfg ags proj (projectArtistsOf cfg aps proj)
        with e | ea <;>
        simp only [assetsProjStep, hc, Bool.false_eq_true, if_false, hv, hb]
      · exact ⟨h₁, h₂⟩
      · exact ⟨h₁, alistInsert_keys_nodup _ _ _ h₂⟩

theorem allExpected_keys_nodup (cfg : Config) (ags : Option (List RemoteAgent))
    (pid : String) (snap : Snapshot) :
    ((allExpectedOf cfg ags pid snap).map Prod.fst).Nodup := by
  have hkn : KeysNodup (buildExpected cfg ags pid snap) := by
    unfold buildExpected
    refine foldlPreserves KeysNodup _ _ _ ?_ ?_
    · intro x _ r hr
      unfold assetsArtistStep
      by_cases hk : (List.lookup x.1 cfg.targetAgents).isSome = true
      · simp only [hk, if_true]
        exact foldlPreserves KeysNodup _ _ _
          (fun y _ r₂ hr₂ =>
            assetsProjStep_KeysNodup cfg ags pid snap.artistProjects r₂ y hr₂) hr
      · simp only [hk, Bool.false_eq_true, if_false]
        exact hr
    · exact foldlPreserves KeysNodup _ _ _
        (fun x _ r hr => shotStep_KeysNodup cfg ags pid r x hr)
        ⟨by simp [initBuildSt], by simp [initBuildSt]⟩
  exact mergeMaps_keys_nodup _ _ hkn.1

/-! Characterisation of the `existing_job_names` dict. -/

theorem jobMapOf_keys (l : List RemoteJob) (n : String) :
    n ∈ (jobMapOf l).map Prod.fst ↔ ∃ j ∈ l, j.name = n := by
  have hgen : ∀ (l : List RemoteJob) (m : List (String × RemoteJob)),
      (n ∈ (l.foldl (fun m j => alistInsert m j.name j) m).map Prod.fst ↔
        n ∈ m.map Prod.fst ∨ ∃ j ∈ l, j.name = n) := by
    intro l
    induction l with
    | nil => intro m; simp
    | cons j rest ih =>
        intro m
        rw [List.foldl_cons, ih, mem_keys_alistInsert]
        constructor
        · rintro ((h | h) | ⟨j₂, hj₂, hn⟩)
          · exact Or.inr ⟨j, List.mem_cons_self j rest, h.symm⟩
          · exact Or.inl h
          · exact Or.inr ⟨j₂, List.mem_cons_of_mem _ hj₂, hn⟩
        · rintro (h | ⟨j₂, hj₂, hn⟩)
          · exact Or.inl (Or.inr h)
          · rcases List.mem_cons.mp hj₂ with hj₂ | hj₂
            · exact Or.inl (Or.inl (by rw [hj₂] at hn; exact hn.symm))
            · exact Or.inr ⟨j₂, hj₂, hn⟩
  rw [show jobMapOf l = l.foldl (fun m j => alistInsert m j.name j) [] from rfl, hgen]
  simp

theorem jobMapOf_lookup_mem (l : List RemoteJob) (n : String) (job : RemoteJob)
    (h : List.lookup n (jobMapOf l) = some job) : job ∈ l ∧ job.name = n := by
  have hgen : ∀ (l : List RemoteJob) (m : List (String × RemoteJob)),
      List.lookup n (l.foldl (fun m j => alistInsert m j.name j) m) = some job →
      (job ∈ l ∧ job.name = n) ∨ List.lookup n m = some job := by
    intro l
    induction l with
    | nil => intro m h; exact Or.inr h
    | cons j rest ih =>
        intro m h
        rw [List.foldl_cons] at h
        rcases ih _ h with h₂ | h₂
        · exact Or.inl ⟨List.mem_cons_of_mem _ h₂.1, h₂.2⟩
        · by_cases hn : n = j.name
          · subst hn
            rw [lookup_alistInsert_self] at h₂
            cases h₂
            exact Or.inl ⟨by simp, rfl⟩
          · rw [lookup_alistInsert_ne _ _ _ _ hn] at h₂
            exact Or.inr h₂
  rcases hgen l [] h with h₂ | h₂
  · exact h₂
  · simp at h₂

/-- Whether the delete issued for name `n` leaves job `j` in place on the
remote system (analysis-level definition). -/
def delKeep (em : List (String × RemoteJob)) (n : String) (j : RemoteJob) : Bool :=
  match List.lookup n em with
  | some jd => j.id != jd.id
  | none => true

/-- The jobs the create loop adds to the remote system, in order
(analysis-level definition; `cid n` is the id the system assigns to the job
created under name `n`). -/
def createdOf (cid : String → Nat) (E : List (String × JobConfig)) :
    List String → List RemoteJob
  | [] => []
  | n :: ns =>
      (match List.lookup n E with
        | some jc => [{ id := cid n, name := n, agents := jc.agents }]
        | none => []) ++ createdOf cid E ns

/-- The effect on one remote job of the update issued for name `n`
(analysis-level definition). -/
def updFun (em : List (String × RemoteJob)) (E : List (String × JobConfig)) (n : String)
    (j : RemoteJob) : RemoteJob :=
  match List.lookup n em, List.lookup n E with
  | some jd, some jc =>
      if compare_job_agents jd jc.agents then j
      else if j.id == jd.id then { j with agents := jc.agents } else j
  | _, _ => j

/-- The combined effect of the whole update loop on one remote job. -/
def updAll (em : List (String × RemoteJob)) (E : List (String × JobConfig))
    (names : List String) (j : RemoteJob) : RemoteJob :=
  names.foldl (fun j n => updFun em E n j) j

theorem deleteStep_inv (dr : Nat → Except String Unit) (em : List (String × RemoteJob))
    (res : SyncResult) (n : String) (hdel : ∀ i, dr i = Except.ok ()) :
    (deleteStep dr em res n).inventoryAfter = res.inventoryAfter.filter (delKeep em n) := by
  rcases hl : List.lookup n em with _ | jd
  · simp only [deleteStep, hl]
    exact ((List.filter_congr (fun j _ => by simp [delKeep, hl])).trans
      (List.filter_true _)).symm
  · simp only [deleteStep, hl, hdel jd.id]
    exact (List.filter_congr (fun j _ => by simp [delKeep, hl])).symm

theorem createStep_inv (cr : String → Except String Nat) (E : List (String × JobConfig))
    (res : SyncResult) (n : String) (cid : String → Nat)
    (hcre : ∀ m, cr m = Except.ok (cid m)) :
    (createStep cr E res n).inventoryAfter = res.inventoryAfter ++
      (match List.lookup n E with
        | some jc => [({ id := cid n, name := n, agents := jc.agents } : RemoteJob)]
        | none => []) := by
  rcases hl : List.lookup n E with _ | jc
  · simp only [createStep, hl, List.append_nil]
  · simp only [createStep, hl, hcre n]

theorem updateStep_inv (u : Nat → Bool) (em : List (String × RemoteJob))
    (E : List (String × JobConfig)) (res : SyncResult) (n : String)
    (hupd : ∀ i, u i = true) :
    (updateStep u em E res n).inventoryAfter = res.inventoryAfter.map (updFun em E n) := by
  rcases hl : List.lookup n em with _ | jd
  · simp only [updateStep, hl]
    exact ((List.map_congr_left (fun j _ => show updFun em E n j = j by
      simp [updFun, hl])).trans (List.map_id' _)).symm
  · rcases he : List.lookup n E with _ | jc
    · simp only [updateStep, hl, he]
      exact ((List.map_congr_left (fun j _ => show updFun em E n j = j by
        simp [updFun, hl, he])).trans (List.map_id' _)).symm
    · by_cases hcm : compare_job_agents jd jc.agents = true
      · simp only [updateStep, hl, he, hcm, if_true]
        exact ((List.map_congr_left (fun j _ => show updFun em E n j = j by
          simp [updFun, hl, he, hcm])).trans (List.map_id' _)).symm
      · simp only [updateStep, hl, he, hcm, Bool.false_eq_true, if_false, hupd jd.id,
          if_true]
        exact (List.map_congr_left (fun j _ => by simp [updFun, hl, he, hcm])).symm

theorem deleteFold_inv (dr : Nat → Except String Unit) (em : List (String × RemoteJob))
    (hdel : ∀ i, dr i = Except.ok ()) :
    ∀ (names : List String) (res : SyncResult),
      (names.foldl (deleteStep dr em) res).inventoryAfter =
        res.inventoryAfter.filter (fun j => names.all (fun n => delKeep em n j))
  | [], res => by simp
  | n :: ns, res => by
      rw [List.foldl_cons, deleteFold_inv dr em hdel ns (deleteStep dr em res n),
        deleteStep_inv dr em res n hdel, List.filter_filter]
      exact List.filter_congr (fun j _ => by simp [Bool.and_comm])

theorem createFold_inv (cr : String → Except String Nat) (E : List (String × JobConfig))
    (cid : String → Nat) (hcre : ∀ m, cr m = Except.ok (cid m)) :
    ∀ (names : List String) (res : SyncResult),
      (names.foldl (createStep cr E) res).inventoryAfter =
        res.inventoryAfter ++ createdOf cid E names
  | [], res => by simp [createdOf]
  | n :: ns, res => by
      rw [List.foldl_cons, createFold_inv cr E cid hcre ns (createStep cr E res n),
        createStep_inv cr E res n cid hcre, List.append_assoc]
      rfl

theorem updateFold_inv (u : Nat → Bool) (em : List (String × RemoteJob))
    (E : List (String × JobConfig)) (hupd : ∀ i, u i = true) :
    ∀ (names : List String) (res : SyncResult),
      (names.foldl (updateStep u em E) res).inventoryAfter =
        res.inventoryAfter.map (updAll em E names)
  | [], res => by
      exact ((List.map_congr_left (fun j _ => rfl)).trans (List.map_id' _)).symm
  | n :: ns, res => by
      rw [List.foldl_cons, updateFold_inv u em E hupd ns (updateStep u em E res n),
        updateStep_inv u em E res n hupd, List.map_map]
      exact List.map_congr_left (fun j _ => rfl)

/-- The remote inventory a fully successful run leaves behind: the fetched
list minus the deleted jobs, plus the created jobs, with the updates
applied. -/
theorem syncCore_inventoryAfter (cfg : Config) (ags : Option (List RemoteAgent))
    (snap : Snapshot) (pid : String) (cid : String → Nat) (L : List RemoteJob)
    (cr : String → Except String Nat) (dr : Nat → Except String Unit) (u : Nat → Bool)
    (hp : get_primary_storage_agent_id cfg ags = Except.ok pid)
    (hdel : ∀ i, dr i = Except.ok ()) (hcre : ∀ m, cr m = Except.ok (cid m))
    (hupd : ∀ i, u i = true) :
    (syncCore cfg ags (some L) cr dr u snap).inventoryAfter =
      ((L.filter (fun j =>
          (toDeleteOf (jobMapOf (existingOf (some L))) (allExpectedOf cfg ags pid snap)).all
            (fun n => delKeep (jobMapOf (existingOf (some L))) n j)) ++
        createdOf cid (allExpectedOf cfg ags pid snap)
          (toCreateOf (jobMapOf (existingOf (some L))) (allExpectedOf cfg ags pid snap))).map
        (updAll (jobMapOf (existingOf (some L))) (allExpectedOf cfg ags pid snap)
          (toCheckOf (jobMapOf (existingOf (some L))) (allExpectedOf cfg ags pid snap)))) := by
  unfold syncCore
  rw [hp]
  simp only
  rw [updateFold_inv _ _ _ hupd, createFold_inv _ _ cid hcre, deleteFold_inv _ _ hdel]
  simp only [initResult, Option.getD_some]
  rfl

theorem updFun_id (em : List (String × RemoteJob)) (E : List (String × JobConfig))
    (n : String) (j : RemoteJob) : (updFun em E n j).id = j.id := by
  rcases hl : List.lookup n em with _ | jd <;> rcases he : List.lookup n E with _ | jc <;>
    simp only [updFun, hl, he]
  split
  · rfl
  · split <;> rfl

theorem updFun_name (em : List (String × RemoteJob)) (E : List (String × JobConfig))
    (n : String) (j : RemoteJob) : (updFun em E n j).name = j.name := by
  rcases hl : List.lookup n em with _ | jd <;> rcases he : List.lookup n E with _ | jc <;>
    simp only [updFun, hl, he]
  split
  · rfl
  · split <;> rfl

theorem updAll_id (em : List (String × RemoteJob)) (E : List (String × JobConfig)) :
    ∀ (names : List String) (j : RemoteJob), (updAll em E names j).id = j.id
  | [], _ => rfl
  | n :: ns, j => by
      show (updAll em E ns (updFun em E n j)).id = j.id
      rw [updAll_id em E ns (updFun em E n j), updFun_id]

theorem updAll_name (em : List (String × RemoteJob)) (E : List (String × JobConfig)) :
    ∀ (names : List String) (j : RemoteJob), (updAll em E names j).name = j.name
  | [], _ => rfl
  | n :: ns, j => by
      show (updAll em E ns (updFun em E n j)).name = j.name
      rw [updAll_name em E ns (updFun em E n j), updFun_name]

theorem updFun_fix (em : List (String × RemoteJob)) (E : List (String × JobConfig))
    (n : String) (j : RemoteJob)
    (h : ∀ jd, List.lookup n em = some jd → j.id ≠ jd.id) : updFun em E n j = j := by
  rcases hl : List.lookup n em with _ | jd <;> rcases he : List.lookup n E with _ | jc <;>
    simp only [updFun, hl, he]
  have hne : (j.id == jd.id) = false := by
    simp [h jd hl]
  split
  · rfl
  · rw [hne]
    simp

theorem updAll_fix (em : List (String × RemoteJob)) (E : List (String × JobConfig)) :
    ∀ (names : List String) (j : RemoteJob),
      (∀ m ∈ names, ∀ jd, List.lookup m em = some jd → j.id ≠ jd.id) →
      updAll em E names j = j
  | [], _, _ => rfl
  | n :: ns, j, h => by
      show updAll em E ns (updFun em E n j) = j
      rw [updFun_fix em E n j (h n (by simp))]
      exact updAll_fix em E ns j (fun m hm => h m (by simp [hm]))

/-- The combined update effect on the unique existing job named `n`: its
agents end up comparing equal to the expected job's agents. -/
theorem updAll_compare (em : List (String × RemoteJob)) (E : List (String × JobConfig))
    (names : List String) (hnd : names.Nodup) (n : String) (hn : n ∈ names)
    (j : RemoteJob) (hjd : List.lookup n em = some j) (jc : JobConfig)
    (hjc : List.lookup n E = some jc)
    (hother : ∀ m ∈ names, m ≠ n → ∀ jdm, List.lookup m em = some jdm → j.id ≠ jdm.id) :
    compare_job_agents (updAll em E names j) jc.agents = true := by
  obtain ⟨l₁, l₂, rfl⟩ := List.append_of_mem hn
  have hnd₂ := List.nodup_append.mp hnd
  have hn₁ : n ∉ l₁ := fun hc => hnd₂.2.2 hc (by simp)
  have hn₂ : n ∉ l₂ := by
    have := hnd₂.2.1
    rw [List.nodup_cons] at this
    exact this.1
  have hfold₁ : updAll em E l₁ j = j :=
    updAll_fix em E l₁ j (fun m hm => hother m (by simp [hm])
      (fun hc => hn₁ (hc ▸ hm)))
  have hsplit : updAll em E (l₁ ++ n :: l₂) j = updAll em E l₂ (updFun em E n (updAll em E l₁ j)) := by
    unfold updAll
    rw [List.foldl_append, List.foldl_cons]
  rw [hsplit, hfold₁]
  by_cases hcm : compare_job_agents j jc.agents = true
  · have hstep : updFun em E n j = j := by
      simp only [updFun, hjd, hjc, hcm, if_true]
    rw [hstep, updAll_fix em E l₂ j (fun m hm => hother m (by simp [hm])
      (fun hc => hn₂ (hc ▸ hm)))]
    exact hcm
  · have hstep : updFun em E n j = { j with agents := jc.agents } := by
      simp only [updFun, hjd, hjc, hcm, Bool.false_eq_true, if_false,
        beq_self_eq_true, if_true]
    rw [hstep, updAll_fix em E l₂ { j with agents := jc.agents }
      (fun m hm => hother m (by simp [hm]) (fun hc => hn₂ (hc ▸ hm)))]
    exact compare_self j.id j.name jc.agents

theorem mem_createdOf (cid : String → Nat) (E : List (String × JobConfig)) :
    ∀ (names : List String) (c : RemoteJob),
      c ∈ createdOf cid E names ↔ ∃ n ∈ names, ∃ jc, List.lookup n E = some jc ∧
        c = { id := cid n, name := n, agents := jc.agents }
  | [], c => by simp [createdOf]
  | n :: ns, c => by
      rcases hl : List.lookup n E with _ | jc
      · simp only [createdOf, hl, List.nil_append]
        rw [mem_createdOf cid E ns c]
        constructor
        · rintro ⟨m, hm, jcm, hjcm, hc⟩
          exact ⟨m, List.mem_cons_of_mem _ hm, jcm, hjcm, hc⟩
        · rintro ⟨m, hm, jcm, hjcm, hc⟩
          rcases List.mem_cons.mp hm with hm | hm
          · subst hm
            rw [hl] at hjcm
            cases hjcm
          · exact ⟨m, hm, jcm, hjcm, hc⟩
      · simp only [createdOf, hl, List.singleton_append]
        constructor
        · intro hc
          rcases List.mem_cons.mp hc with hc | hc
          · exact ⟨n, by simp, jc, hl, hc⟩
          · obtain ⟨m, hm, jcm, hjcm, hcm⟩ := (mem_createdOf cid E ns c).mp hc
            exact ⟨m, List.mem_cons_of_mem _ hm, jcm, hjcm, hcm⟩
        · rintro ⟨m, hm, jcm, hjcm, hcm⟩
          rcases List.mem_cons.mp hm with hm | hm
          · subst hm
            rw [hl] at hjcm
            cases hjcm
            subst hcm
            exact List.mem_cons_self _ _
          · exact List.mem_cons_of_mem _
              ((mem_createdOf cid E ns c).mpr ⟨m, hm, jcm, hjcm, hcm⟩)

/-- The `existing_job_names` dict of a run that fetched `L`. -/
def emOfL (L : List RemoteJob) : List (String × RemoteJob) :=
  jobMapOf (existingOf (some L))

/-- The remote inventory after a fully successful run over `L`
(analysis-level definition, shown equal to the run's `inventoryAfter`). -/
def afterInv (cfg : Config) (ags : Option (List RemoteAgent)) (pid : String)
    (snap : Snapshot) (cid : String → Nat) (L : List RemoteJob) : List RemoteJob :=
  (L.filter (fun j =>
      (toDeleteOf (emOfL L) (allExpectedOf cfg ags pid snap)).all
        (fun n => delKeep (emOfL L) n j)) ++
    createdOf cid (allExpectedOf cfg ags pid snap)
      (toCreateOf (emOfL L) (allExpectedOf cfg ags pid snap))).map
    (updAll (emOfL L) (allExpectedOf cfg ags pid snap)
      (toCheckOf (emOfL L) (allExpectedOf cfg ags pid snap)))

theorem syncCore_inventoryAfter_eq (cfg : Config) (ags : Option (List RemoteAgent))
    (snap : Snapshot) (pid : String) (cid : String → Nat) (L : List RemoteJob)
    (cr : String → Except String Nat) (dr : Nat → Except String Unit) (u : Nat → Bool)
    (hp : get_primary_storage_agent_id cfg ags = Except.ok pid)
    (hdel : ∀ i, dr i = Except.ok ()) (hcre : ∀ m, cr m = Except.ok (cid m))
    (hupd : ∀ i, u i = true) :
    (syncCore cfg ags (some L) cr dr u snap).inventoryAfter =
      afterInv cfg ags pid snap cid L := by
  rw [syncCore_inventoryAfter cfg ags snap pid cid L cr dr u hp hdel hcre hupd]
  rfl

/-- Fact 1: every managed job the run leaves in place has an expected job
under its name. -/
theorem afterInv_lookup_isSome (cfg : Config) (ags : Option (List RemoteAgent))
    (pid : String) (snap : Snapshot) (cid : String → Nat) (L : List RemoteJob)
    (hnames : (L.map RemoteJob.name).Nodup) :
    ∀ j ∈ afterInv cfg ags pid snap cid L,
      pyStartswith j.name "HybridWork_" = true →
      (List.lookup j.name (allExpectedOf cfg ags pid snap)).isSome = true := by
  intro j hj hpref
  obtain ⟨j₀, hj₀, rfl⟩ := List.mem_map.mp hj
  rw [updAll_name] at hpref ⊢
  rcases List.mem_append.mp hj₀ with hj₀ | hj₀
  · have hmf := List.mem_filter.mp hj₀
    rcases hv : List.lookup j₀.name (allExpectedOf cfg ags pid snap) with _ | jc
    · exfalso
      have hjf : j₀ ∈ L.filter (fun j => pyStartswith j.name "HybridWork_") :=
        List.mem_filter.mpr ⟨hmf.1, hpref⟩
      have hkeys : j₀.name ∈ (emOfL L).map Prod.fst := by
        rw [emOfL, show existingOf (some L) =
          L.filter (fun j => pyStartswith j.name "HybridWork_") from rfl,
          jobMapOf_keys]
        exact ⟨j₀, hjf, rfl⟩
      have hdelmem : j₀.name ∈ toDeleteOf (emOfL L) (allExpectedOf cfg ags pid snap) :=
        List.mem_filter.mpr ⟨hkeys, by simp [hv]⟩
      have hkeep := List.all_eq_true.mp hmf.2 j₀.name hdelmem
      obtain ⟨jd, hjd⟩ := Option.isSome_iff_exists.mp (lookup_isSome_of_mem_keys hkeys)
      have hmem₂ := jobMapOf_lookup_mem _ _ _ hjd
      have hjd_L : jd ∈ L := (List.mem_filter.mp hmem₂.1).1
      have : jd = j₀ :=
        List.inj_on_of_nodup_map hnames hjd_L hmf.1 hmem₂.2
      subst this
      rw [delKeep, hjd] at hkeep
      simp at hkeep
    · simp [hv]
  · obtain ⟨n, _, jc, hjc, rfl⟩ := (mem_createdOf _ _ _ _).mp hj₀
    simp [hjc]

/-- Fact 2: every expected job name is carried by some managed job the run
leaves in place. -/
theorem afterInv_covers (cfg : Config) (ags : Option (List RemoteAgent))
    (pid : String) (snap : Snapshot) (cid : String → Nat) (L : List RemoteJob)
    (hnames : (L.map RemoteJob.name).Nodup) (hids : (L.map RemoteJob.id).Nodup) :
    ∀ (n : String) (jc : JobConfig),
      List.lookup n (allExpectedOf cfg ags pid snap) = some jc →
      ∃ j ∈ afterInv cfg ags pid snap cid L,
        j.name = n ∧ pyStartswith j.name "HybridWork_" = true := by
  intro n jc hjc
  have hpref : pyStartswith n "HybridWork_" = true :=
    allExpected_keys_pref cfg ags pid snap n
      (mem_keys_of_lookup_isSome (by simp [hjc]))
  rcases hle : List.lookup n (emOfL L) with _ | jd
  · have hkeys : n ∈ (allExpectedOf cfg ags pid snap).map Prod.fst :=
      mem_keys_of_lookup_isSome (by simp [hjc])
    have hcre : n ∈ toCreateOf (emOfL L) (allExpectedOf cfg ags pid snap) :=
      List.mem_filter.mpr ⟨hkeys, by simp [hle]⟩
    refine ⟨updAll (emOfL L) (allExpectedOf cfg ags pid snap)
      (toCheckOf (emOfL L) (allExpectedOf cfg ags pid snap))
      { id := cid n, name := n, agents := jc.agents }, ?_, ?_, ?_⟩
    · exact List.mem_map_of_mem _ (List.mem_append_right _
        ((mem_createdOf _ _ _ _).mpr ⟨n, hcre, jc, hjc, rfl⟩))
    · rw [updAll_name]
    · rw [updAll_name]
      exact hpref
  · have hmem₂ := jobMapOf_lookup_mem _ _ _ hle
    have hjd_L : jd ∈ L := (List.mem_filter.mp hmem₂.1).1
    have hkeep : (toDeleteOf (emOfL L) (allExpectedOf cfg ags pid snap)).all
        (fun m => delKeep (emOfL L) m jd) = true := by
      rw [List.all_eq_true]
      intro m hm
      have hmnone := (List.mem_filter.mp hm).2
      rcases hlm : List.lookup m (emOfL L) with _ | jdm
      · simp [delKeep, hlm]
      · have hmem₃ := jobMapOf_lookup_mem _ _ _ hlm
        have hjdm_L : jdm ∈ L := (List.mem_filter.mp hmem₃.1).1
        have hne : jd.id ≠ jdm.id := by
          intro hid
          have : jd = jdm := List.inj_on_of_nodup_map hids hjd_L hjdm_L hid
          subst this
          rw [hmem₂.2] at hmem₃
          rw [← hmem₃.2] at hmnone
          simp [hjc] at hmnone
        simp [delKeep, hlm, hne]
    refine ⟨updAll (emOfL L) (allExpectedOf cfg ags pid snap)
      (toCheckOf (emOfL L) (allExpectedOf cfg ags pid snap)) jd, ?_, ?_, ?_⟩
    · exact List.mem_map_of_mem _ (List.mem_append_left _
        (List.mem_filter.mpr ⟨hjd_L, hkeep⟩))
    · rw [updAll_name]
      exact hmem₂.2
    · rw [updAll_name]
      rw [hmem₂.2]
      exact hpref

/-- Fact 3: every job the run leaves in place whose name is expected carries
exactly the expected enduser agent set. -/
theorem afterInv_agents_match (cfg : Config) (ags : Option (List RemoteAgent))
    (pid : String) (snap : Snapshot) (cid : String → Nat) (L : List RemoteJob)
    (hnames : (L.map RemoteJob.name).Nodup) (hids : (L.map RemoteJob.id).Nodup)
    (hfresh : ∀ n : String, cid n ∉ L.map RemoteJob.id) :
    ∀ j ∈ afterInv cfg ags pid snap cid L, ∀ jc : JobConfig,
      List.lookup j.name (allExpectedOf cfg ags pid snap) = some jc →
      compare_job_agents j jc.agents = true := by
  intro j hj jc hjc
  obtain ⟨j₀, hj₀, rfl⟩ := List.mem_map.mp hj
  rw [updAll_name] at hjc
  have hndChk : (toCheckOf (emOfL L) (allExpectedOf cfg ags pid snap)).Nodup :=
    (allExpected_keys_nodup cfg ags pid snap).filter _
  rcases List.mem_append.mp hj₀ with hj₀ | hj₀
  · have hj₀L : j₀ ∈ L := (List.mem_filter.mp hj₀).1
    have hpref : pyStartswith j₀.name "HybridWork_" = true :=
      allExpected_keys_pref cfg ags pid snap j₀.name
        (mem_keys_of_lookup_isSome (by simp [hjc]))
    have hjf : j₀ ∈ L.filter (fun j => pyStartswith j.name "HybridWork_") :=
      List.mem_filter.mpr ⟨hj₀L, hpref⟩
    have hkeys : j₀.name ∈ (emOfL L).map Prod.fst := by
      rw [emOfL, show existingOf (some L) =
        L.filter (fun j => pyStartswith j.name "HybridWork_") from rfl,
        jobMapOf_keys]
      exact ⟨j₀, hjf, rfl⟩
    obtain ⟨jd, hjd⟩ := Option.isSome_iff_exists.mp (lookup_isSome_of_mem_keys hkeys)
    have hmem₂ := jobMapOf_lookup_mem _ _ _ hjd
    have hjd_L : jd ∈ L := (List.mem_filter.mp hmem₂.1).1
    have hjdj₀ : jd = j₀ :=
      List.inj_on_of_nodup_map hnames hjd_L hj₀L hmem₂.2
    subst hjdj₀
    have hchk : jd.name ∈ toCheckOf (emOfL L) (allExpectedOf cfg ags pid snap) :=
      List.mem_filter.mpr ⟨mem_keys_of_lookup_isSome (by simp [hjc]), by simp [hjd]⟩
    refine updAll_compare (emOfL L) (allExpectedOf cfg ags pid snap)
      (toCheckOf (emOfL L) (allExpectedOf cfg ags pid snap)) hndChk
      jd.name hchk jd hjd jc hjc ?_
    intro m hm hne jdm hjdm hid
    have hmem₃ := jobMapOf_lookup_mem _ _ _ hjdm
    have hjdm_L : jdm ∈ L := (List.mem_filter.mp hmem₃.1).1
    have : jd = jdm := List.inj_on_of_nodup_map hids hjd_L hjdm_L hid
    subst this
    exact hne hmem₃.2.symm
  · obtain ⟨n, hnc, jc₀, hjc₀, rfl⟩ := (mem_createdOf _ _ _ _).mp hj₀
    have hjc2 : List.lookup n (allExpectedOf cfg ags pid snap) = some jc := hjc
    rw [hjc₀] at hjc2
    cases hjc2
    rw [updAll_fix]
    · exact compare_self (cid n) n jc.agents
    · intro m hm jdm hjdm
      have hjdm_L : jdm ∈ L :=
        (List.mem_filter.mp (jobMapOf_lookup_mem _ _ _ hjdm).1).1
      intro hid
      apply hfresh n
      have hcn : cid n = jdm.id := hid
      rw [hcn]
      exact List.mem_map_of_mem _ hjdm_L

theorem foldl_congr_id {α β : Type} (f : β → α → β) :
    ∀ (l : List α) (b : β), (∀ a ∈ l, ∀ r, f r a = r) → l.foldl f b = b
  | [], _, _ => rfl
  | a :: l, b, h => by
      rw [List.foldl_cons, h a (by simp) b]
      exact foldl_congr_id f l b (fun x hx r => h x (by simp [hx]) r)

/-- A run over an inventory that already satisfies facts 1–3 issues no API
call at all: the result is the freshly initialised record (with the
artist count filled in). -/
theorem syncCore_noop (cfg : Config) (ags : Option (List RemoteAgent)) (pid : String)
    (snap : Snapshot) (L₂ : List RemoteJob)
    (cr₂ : String → Except String Nat) (dr₂ : Nat → Except String Unit) (u₂ : Nat → Bool)
    (hp : get_primary_storage_agent_id cfg ags = Except.ok pid)
    (hF1 : ∀ j ∈ L₂, pyStartswith j.name "HybridWork_" = true →
        (List.lookup j.name (allExpectedOf cfg ags pid snap)).isSome = true)
    (hF2 : ∀ (n : String) (jc : JobConfig),
        List.lookup n (allExpectedOf cfg ags pid snap) = some jc →
        ∃ j ∈ L₂, j.name = n ∧ pyStartswith j.name "HybridWork_" = true)
    (hF3 : ∀ j ∈ L₂, ∀ jc : JobConfig,
        List.lookup j.name (allExpectedOf cfg ags pid snap) = some jc →
        compare_job_agents j jc.agents = true) :
    syncCore cfg ags (some L₂) cr₂ dr₂ u₂ snap =
      { initResult (buildExpected cfg ags pid snap) L₂ with
        artists_processed :=
          some (buildExpected cfg ags pid snap).artistsProcessed.length } := by
  have hdel0 : toDeleteOf (emOfL L₂) (allExpectedOf cfg ags pid snap) = [] := by
    rw [toDeleteOf, List.filter_eq_nil_iff]
    intro n hn
    rw [emOfL, show existingOf (some L₂) =
      L₂.filter (fun j => pyStartswith j.name "HybridWork_") from rfl,
      jobMapOf_keys] at hn
    obtain ⟨j, hj, rfl⟩ := hn
    have hjL := List.mem_filter.mp hj
    obtain ⟨jc, hjc⟩ := Option.isSome_iff_exists.mp (hF1 j hjL.1 hjL.2)
    simp [hjc]
  have hcre0 : toCreateOf (emOfL L₂) (allExpectedOf cfg ags pid snap) = [] := by
    rw [toCreateOf, List.filter_eq_nil_iff]
    intro n hn
    obtain ⟨jc, hjc⟩ := Option.isSome_iff_exists.mp (lookup_isSome_of_mem_keys hn)
    obtain ⟨j, hjL, hjn, hjp⟩ := hF2 n jc hjc
    have hjf : j ∈ L₂.filter (fun j => pyStartswith j.name "HybridWork_") :=
      List.mem_filter.mpr ⟨hjL, hjp⟩
    have hk : n ∈ (emOfL L₂).map Prod.fst := by
      rw [emOfL, show existingOf (some L₂) =
        L₂.filter (fun j => pyStartswith j.name "HybridWork_") from rfl,
        jobMapOf_keys]
      exact ⟨j, hjf, hjn⟩
    obtain ⟨jd, hjd⟩ := Option.isSome_iff_exists.mp (lookup_isSome_of_mem_keys hk)
    simp [hjd]
  have hupd_id : ∀ n ∈ toCheckOf (emOfL L₂) (allExpectedOf cfg ags pid snap),
      ∀ res, updateStep u₂ (emOfL L₂) (allExpectedOf cfg ags pid snap) res n = res := by
    intro n hn res
    have hmf := List.mem_filter.mp hn
    obtain ⟨jd, hjd⟩ := Option.isSome_iff_exists.mp hmf.2
    obtain ⟨jc, hjc⟩ := Option.isSome_iff_exists.mp (lookup_isSome_of_mem_keys hmf.1)
    have hmem := jobMapOf_lookup_mem (existingOf (some L₂)) n jd hjd
    have hjdL : jd ∈ L₂ := (List.mem_filter.mp hmem.1).1
    have hjc2 : List.lookup jd.name (allExpectedOf cfg ags pid snap) = some jc := by
      rw [hmem.2]
      exact hjc
    have hcmp := hF3 jd hjdL jc hjc2
    simp [updateStep, hjd, hjc, hcmp]
  unfold syncCore
  rw [hp]
  simp only
  rw [show mergeMaps (buildExpected cfg ags pid snap).expectedShotJobs
    (buildExpected cfg ags pid snap).expectedAssetsJobs =
      allExpectedOf cfg ags pid snap from rfl]
  rw [show jobMapOf (existingOf (some L₂)) = emOfL L₂ from rfl]
  rw [hdel0, hcre0, List.foldl_nil, List.foldl_nil,
    foldl_congr_id _ _ _ hupd_id, Option.getD_some]

/-- C1 (amended): if the first run fetches an inventory `L` with pairwise
distinct job names and pairwise distinct job ids, every delete, create and
update call of the first run succeeds, and the orchestration system assigns
created jobs ids that are fresh with respect to `L`, then a second run over
the unchanged snapshot and config, against the inventory the first run left
behind, issues zero create calls, zero delete calls and zero update calls,
and all six created/updated/deleted counts of the second run are zero. -/
theorem C1_second_run_idempotent (cfg : Config) (o₁ o₂ : Oracle) (snap : Snapshot)
    (pid : String) (cid : String → Nat) (L : List RemoteJob)
    (hp : get_primary_storage_agent_id cfg o₁.agents = Except.ok pid)
    (hjobs : o₁.jobs = some L)
    (hnames : (L.map RemoteJob.name).Nodup) (hids : (L.map RemoteJob.id).Nodup)
    (hfresh : ∀ n : String, cid n ∉ L.map RemoteJob.id)
    (hdel : ∀ i, o₁.deleteRes i = Except.ok ())
    (hcre : ∀ m, o₁.createRes m = Except.ok (cid m))
    (hupd : ∀ i, o₁.updOk i = true)
    (ho₂a : o₂.agents = o₁.agents)
    (ho₂j : o₂.jobs = some (sync cfg o₁ snap).inventoryAfter) :
    (sync cfg o₂ snap).createCalls = [] ∧ (sync cfg o₂ snap).deleteCalls = [] ∧
    (sync cfg o₂ snap).updateCalls = [] ∧
    (sync cfg o₂ snap).shot_jobs_created = 0 ∧ (sync cfg o₂ snap).shot_jobs_updated = 0 ∧
    (sync cfg o₂ snap).shot_jobs_deleted = 0 ∧
    (sync cfg o₂ snap).assets_jobs_created = 0 ∧
    (sync cfg o₂ snap).assets_jobs_updated = 0 ∧
    (sync cfg o₂ snap).assets_jobs_deleted = 0 := by
  have hinv : (sync cfg o₁ snap).inventoryAfter =
      afterInv cfg o₁.agents pid snap cid L := by
    rw [sync, hjobs]
    exact syncCore_inventoryAfter_eq cfg o₁.agents snap pid cid L o₁.createRes
      o₁.deleteRes o₁.updOk hp hdel hcre hupd
  have hred : sync cfg o₂ snap =
      syncCore cfg o₁.agents (some (afterInv cfg o₁.agents pid snap cid L))
        o₂.createRes o₂.deleteRes o₂.updOk snap := by
    rw [sync, ho₂a, ho₂j, hinv]
  rw [hred, syncCore_noop cfg o₁.agents pid snap _ _ _ _ hp
    (afterInv_lookup_isSome cfg o₁.agents pid snap cid L hnames)
    (afterInv_covers cfg o₁.agents pid snap cid L hnames hids)
    (afterInv_agents_match cfg o₁.agents pid snap cid L hnames hids hfresh)]
  simp [initResult]

/-- An oracle over the empty inventory whose create calls all succeed with
id 7. -/
def c1wOracle : Oracle :=
  { agents := some [], jobs := some [], createRes := fun _ => Except.ok 7,
    deleteRes := fun _ => Except.ok (), updOk := fun _ => true }

/-- Witness for C1: a successful first run over the empty inventory creates
the two expected jobs, and a second run over what it left behind issues no
call and counts nothing. -/
theorem C1_second_run_idempotent_witness :
    (sync wCfg { c1wOracle with
        jobs := some (sync wCfg c1wOracle wSnap).inventoryAfter } wSnap).createCalls = [] ∧
    (sync wCfg { c1wOracle with
        jobs := some (sync wCfg c1wOracle wSnap).inventoryAfter } wSnap).deleteCalls = [] ∧
    (sync wCfg { c1wOracle with
        jobs := some (sync wCfg c1wOracle wSnap).inventoryAfter } wSnap).updateCalls = [] ∧
    (sync wCfg { c1wOracle with
        jobs := some (sync wCfg c1wOracle wSnap).inventoryAfter }
        wSnap).shot_jobs_created = 0 ∧
    (sync wCfg { c1wOracle with
        jobs := some (sync wCfg c1wOracle wSnap).inventoryAfter }
        wSnap).shot_jobs_updated = 0 ∧
    (sync wCfg { c1wOracle with
        jobs := some (sync wCfg c1wOracle wSnap).inventoryAfter }
        wSnap).shot_jobs_deleted = 0 ∧
    (sync wCfg { c1wOracle with
        jobs := some (sync wCfg c1wOracle wSnap).inventoryAfter }
        wSnap).assets_jobs_created = 0 ∧
    (sync wCfg { c1wOracle with
        jobs := some (sync wCfg c1wOracle wSnap).inventoryAfter }
        wSnap).assets_jobs_updated = 0 ∧
    (sync wCfg { c1wOracle with
        jobs := some (sync wCfg c1wOracle wSnap).inventoryAfter }
        wSnap).assets_jobs_deleted = 0 :=
  C1_second_run_idempotent wCfg c1wOracle
    { c1wOracle with jobs := some (sync wCfg c1wOracle wSnap).inventoryAfter }
    wSnap "1" (fun _ => 7) []
    (by rfl) rfl (by simp) (by simp) (by simp)
    (fun _ => rfl) (fun _ => rfl) (fun _ => rfl) rfl rfl

/-- An oracle over the empty inventory whose create calls all fail. -/
def c1xOracle : Oracle :=
  { agents := some [], jobs := some [], createRes := fun _ => Except.error "boom",
    deleteRes := fun _ => Except.ok (), updOk := fun _ => true }

/-- Counterexample to the claim as stated: when the first run's create calls
fail, the run still completes and leaves the inventory it found (here: the
empty one), so a second run over exactly that inventory re-issues its create
calls — the premise of the claim holds while its conclusion fails. -/
theorem C1_counterexample :
    (sync wCfg c1xOracle wSnap).inventoryAfter = [] ∧
    (sync wCfg { c1xOracle with
        jobs := some (sync wCfg c1xOracle wSnap).inventoryAfter }
        wSnap).createCalls ≠ [] := by
  constructor
  · rfl
  · decide
